import Mathlib

/-!
Verification development for the trello-tools repository.

Shallow embedding of the pure filtering/formatting/parsing helpers of the
scripts, together with proofs of the behavioural properties stated in the
specification.  JavaScript strings are modelled as Lean `String`/`List Char`,
JS numbers (used here only as non-negative integers / minute counts) as `Nat`,
nullable values as `Option`.
-/

namespace TrelloTools

/-! ## Character class helpers (shared by the regex-based helpers) -/

/-- ASCII decimal digit, the JS regex class `[0-9]` / `\d`
(code points 48-57). -/
def isDigitChar (c : Char) : Bool := 48 ≤ c.toNat && c.toNat ≤ 57

/-- ASCII lower-case letter. -/
def isAsciiLower (c : Char) : Bool := 'a' ≤ c && c ≤ 'z'

/-- JS regex word character `\w`: letters, digits and underscore
(used by the word-boundary assertion `\b`). -/
def isWordChar (c : Char) : Bool :=
  ('a' ≤ c && c ≤ 'z') || ('A' ≤ c && c ≤ 'Z') || ('0' ≤ c && c ≤ '9') || c == '_'

/-- JS regex whitespace `\s`: ASCII whitespace (space, tab, LF, VT, FF, CR)
plus the Unicode space characters recognised by JavaScript, by code point. -/
def isSpaceChar (c : Char) : Bool :=
  c.toNat == 32 || c.toNat == 9 || c.toNat == 10 || c.toNat == 11 ||
  c.toNat == 12 || c.toNat == 13 ||
  c.toNat == 160 || c.toNat == 5760 ||
  (8192 ≤ c.toNat && c.toNat ≤ 8202) ||
  c.toNat == 8232 || c.toNat == 8233 || c.toNat == 8239 ||
  c.toNat == 8287 || c.toNat == 12288 || c.toNat == 65279

/-- Upper-case counterpart of a lower-case ASCII letter. -/
def upperChar (c : Char) : Char := Char.ofNat (c.toNat - 32)

/-- Case-insensitive match of one pattern character `p` (the patterns in
the scripts are written in lower case) against an input character `c`,
as under the JS regex `i` flag. -/
def charMatchCI (p c : Char) : Bool :=
  c == p || (isAsciiLower p && c == upperChar p)

/-! ## due-today.js : `isPastDueButNotToday` (C1, C10)

`dayjs` timestamps are modelled by their local calendar/clock fields.
`due.isBefore(now, 'day')` compares the two timestamps truncated to the
start of their day, i.e. it compares the calendar dates; `format('YYYY-MM-DD')`
renders exactly the calendar date, and the rendering is injective in the
(year, month, day) triple, so the string comparison of the two formatted
dates is modelled as equality of the triples. -/

structure DateTime where
  year : Nat
  month : Nat
  day : Nat
  hour : Nat
  minute : Nat
deriving Repr, DecidableEq

/-- The calendar date of a timestamp: what `format('YYYY-MM-DD')` determines. -/
def dateTriple (t : DateTime) : Nat × Nat × Nat := (t.year, t.month, t.day)

/-- `due.isBefore(now, 'day')`: calendar date of `due` strictly before the
calendar date of `now`. -/
def dateLt (a b : DateTime) : Bool :=
  a.year < b.year ||
  (a.year == b.year && (a.month < b.month ||
    (a.month == b.month && a.day < b.day)))

/-- due-today.js lines 42-49.  A missing/empty due value (`!dueIso`) is
modelled as `none`. -/
def isPastDueButNotToday (dueIso : Option DateTime) (now : DateTime) : Bool :=
  match dueIso with
  | none => false
  | some due => dateLt due now && decide (dateTriple due ≠ dateTriple now)

/-- A Trello card as fetched by due-today.js (fields used by the filter). -/
structure Card where
  id : String
  name : String
  due : Option DateTime
  idMembers : List String
deriving Repr, DecidableEq

/-- due-today.js line 74: the candidate filter
`cards.filter(c => Array.isArray(c.idMembers) && c.idMembers.includes(myId)
&& isPastDueButNotToday(c.due, now))`. -/
def candidateCards (cards : List Card) (myId : String) (now : DateTime) : List Card :=
  cards.filter (fun c => myId ∈ c.idMembers && isPastDueButNotToday c.due now)

/-! ## due-today.js : batch update loop (C2)

Lines 109-132.  The scheduling slot is a dayjs timestamp advanced by
`slot.add(15, 'minute')`; it is modelled as an absolute minute count.
Each loop iteration either (confirmed) issues `updateCardDue(c.id, slot)` and
advances the slot by `incrementMinutes`, or (declined) does nothing. -/

def incrementMinutes : Nat := 15

/-- The batch loop: given the candidate cards paired with the user's
confirm/decline decision and the initial slot, return the list of issued
due-date mutations `(cardId, dueSlot)` in order. -/
def runBatch : List (Card × Bool) → Nat → List (String × Nat)
  | [], _ => []
  | (c, confirm) :: rest, slot =>
    if confirm then (c.id, slot) :: runBatch rest (slot + incrementMinutes)
    else runBatch rest slot

/-- The confirmed cards of a decision list, in order. -/
def confirmedOf (items : List (Card × Bool)) : List Card :=
  (items.filter (fun p => p.2)).map (fun p => p.1)

/-- Specification-side schedule: the k-th card of the list receives
`slot0 + k * incrementMinutes` (stated from the spec sentence about the
scheduling clock, for comparison with `runBatch`). -/
def scheduleFrom : List Card → Nat → List (String × Nat)
  | [], _ => []
  | c :: cs, slot => (c.id, slot) :: scheduleFrom cs (slot + incrementMinutes)

/-! ## daily-report.js : `parseTime` (C4)

Lines 31-38.  `str.replace(/[^\dh\dm]/g, "")` keeps exactly the digits and
the letters `h` and `m`; `/([0-9]+)h/.exec` finds the leftmost maximal digit
run immediately followed by the marker letter (shrinking the greedy `[0-9]+`
can never help, because the character after a shortened run is a digit and
the markers `h`/`m` are not digits), and `parseInt` of the captured digits
is the usual decimal value. -/

/-- The character class kept by `str.replace(/[^\dh\dm]/g, "")`. -/
def keepChar (c : Char) : Bool := isDigitChar c || c == 'h' || c == 'm'

/-- `parseInt` on a string of decimal digits. -/
def digitsToNat (l : List Char) : Nat :=
  l.foldl (fun a c => a * 10 + (c.toNat - 48)) 0

/-- `/([0-9]+)marker/.exec(s)`: value of the captured digit group of the
leftmost match, if any. -/
def execNum (marker : Char) : List Char → Option Nat
  | [] => none
  | c :: rest =>
    if isDigitChar c then
      if (((c :: rest).dropWhile isDigitChar).head? == some marker) then
        some (digitsToNat ((c :: rest).takeWhile isDigitChar))
      else execNum marker rest
    else execNum marker rest

/-- daily-report.js `parseTime`.  A non-string input (`typeof str !== "string"`,
including `null`/`undefined`) is modelled as `none`; `!str` is the empty
string. -/
def parseTime (str : Option String) : Nat :=
  match str with
  | none => 0
  | some s =>
    if s.data = [] then 0
    else
      let clean := s.data.filter keepChar
      (execNum 'h' clean).getD 0 * 60 + (execNum 'm' clean).getD 0

/-! ## daily-report.js : `groupPlanywayTickets` (C5)

Lines 113-139.  Entries of the Planyway export: a name and a tracked-time
string.  `tickets.flat()` is the identity on a flat list of entries (the
claim's input domain), and the `!t || typeof t !== "object"` guard never
fires on it, so the embedding takes the flat list of entries directly. -/

structure Ticket where
  name : String
  time : String
deriving Repr, DecidableEq

/-- First loop of `groupPlanywayTickets`: the distinct names in first-seen
order, via the `seen` set. -/
def uniqueNamesAux : List Ticket → List String → List String
  | [], _ => []
  | t :: rest, seen =>
    if t.name ∈ seen then uniqueNamesAux rest seen
    else t.name :: uniqueNamesAux rest (t.name :: seen)

/-- `groupPlanywayTickets`: one group per distinct name (first-seen order),
whose `totalMinutes` is the sum of `parseTime(t.time)` over the entries
with that name (second loop of the function). -/
def groupPlanywayTickets (tickets : List Ticket) : List (String × Nat) :=
  (uniqueNamesAux tickets []).map (fun n =>
    (n, ((tickets.filter (fun t => t.name == n)).map
          (fun t => parseTime (some t.time))).sum))

/-- Specification-side first-seen deduplication, for comparison with the
`seen`-set loop: keep each element's first occurrence, drop the rest. -/
def firstSeen : List String → List String
  | [] => []
  | a :: l => a :: firstSeen (l.filter (fun b => b ≠ a))
termination_by l => l.length
decreasing_by
  simp only [List.length_cons]
  exact Nat.lt_succ_of_le (List.length_filter_le _ _)

/-! ## Literal / case-insensitive pattern matching primitive

Shared by the embeddings of the regex helpers below.  `matchCI pat s`
matches the literal pattern `pat` (written lower case; letters match
case-insensitively under the `i` flag) at the start of `s` and returns
the consumed input and the rest. -/

def matchCI : List Char → List Char → Option (List Char × List Char)
  | [], s => some ([], s)
  | _ :: _, [] => none
  | p :: ps, c :: cs =>
    if charMatchCI p c then
      (matchCI ps cs).map (fun pr => (c :: pr.1, pr.2))
    else none

/-- `https?://` with the `i` flag: `http`, a greedy optional `s`, then `://`
(if the optional `s` is taken but `://` does not follow, the engine
backtracks and requires `://` directly). -/
def matchScheme (s : List Char) : Option (List Char × List Char) :=
  (matchCI ("http".data) s).bind (fun pr =>
    match matchCI ("s://".data) pr.2 with
    | some pr2 => some (pr.1 ++ pr2.1, pr2.2)
    | none => (matchCI ("://".data) pr.2).map (fun pr2 => (pr.1 ++ pr2.1, pr2.2)))

/-! ## pr-to-trello.js : `parsePrUrl` (C7)

Lines 72-77: `url.match(/^https?:\/\/github\.com\/([^\/]+)\/([^\/]+)\/pull\/(\d+)/i)`.
The pattern is anchored at the start only; `[^\/]+` is a maximal run of
non-slash characters (shrinking it cannot help, since the following literal
is `/`), and `\d+` is a maximal digit run.  A falsy input (`!url`) gives
`null`, modelled as a `none` input. -/

structure PrRef where
  owner : String
  repo : String
  number : Nat
deriving Repr, DecidableEq

/-- Final stage of the pattern: `(\d+)` — a non-empty maximal digit run. -/
def prStep3 (owner repo rest : List Char) : Option PrRef :=
  if rest.takeWhile isDigitChar = [] then none
  else some ⟨⟨owner⟩, ⟨repo⟩, digitsToNat (rest.takeWhile isDigitChar)⟩

/-- `([^\/]+)\/pull\/` — the repo segment: a non-empty maximal non-slash run
(shrinking it cannot help, since a literal `/` must follow), then the
literal `/pull/`. -/
def prStep2 (owner rest : List Char) : Option PrRef :=
  if rest.takeWhile (fun c => c ≠ '/') = [] then none
  else
    (matchCI ("/pull/".data) (rest.dropWhile (fun c => c ≠ '/'))).bind
      (fun pr3 => prStep3 owner (rest.takeWhile (fun c => c ≠ '/')) pr3.2)

/-- `([^\/]+)\/` — the owner segment, same shape. -/
def prStep1 (rest : List Char) : Option PrRef :=
  if rest.takeWhile (fun c => c ≠ '/') = [] then none
  else
    (matchCI (['/']) (rest.dropWhile (fun c => c ≠ '/'))).bind
      (fun prs => prStep2 (rest.takeWhile (fun c => c ≠ '/')) prs.2)

/-- The anchored pattern `^https?:\/\/github\.com\/...` applied at the start
of the subject. -/
def parsePrUrlCore (l : List Char) : Option PrRef :=
  (matchScheme l).bind (fun pr1 =>
  (matchCI ("github.com/".data) pr1.2).bind (fun pr2 => prStep1 pr2.2))

def parsePrUrl (url : Option String) : Option PrRef :=
  match url with
  | none => none
  | some u => if u.data = [] then none else parsePrUrlCore u.data

/-! ## trello-branch-name.js : `slugifyName` and `extractTicketId` (C6) -/

/-- `toLowerCase` on the ASCII range (the repository's card names). -/
def toLowerAscii (c : Char) : Char :=
  if 'A' ≤ c && c ≤ 'Z' then Char.ofNat (c.toNat + 32) else c

/-- `.normalize('NFKD')`: Unicode compatibility decomposition, the identity
on the character range modelled here. -/
def nfkd (l : List Char) : List Char := l

/-- The class kept by `.replace(/[^a-z0-9\s-]/g, '')` (after lowercasing). -/
def slugKeepChar (c : Char) : Bool :=
  isAsciiLower c || isDigitChar c || isSpaceChar c || c == '-'

/-- `.trim()`: strip whitespace from both ends. -/
def trimChars (l : List Char) : List Char :=
  (((l.dropWhile isSpaceChar).reverse).dropWhile isSpaceChar).reverse

/-- Separator class of `.replace(/[\s_-]+/g, '-')`. -/
def isSepChar (c : Char) : Bool := isSpaceChar c || c == '_' || c == '-'

theorem length_dropWhile_le (p : Char → Bool) (l : List Char) :
    (l.dropWhile p).length ≤ l.length := by
  induction l with
  | nil => simp
  | cons c r ih =>
    by_cases h : p c
    · simp only [List.dropWhile_cons, h, if_true, List.length_cons]
      exact Nat.le_succ_of_le ih
    · simp [List.dropWhile_cons, h]

/-- `.replace(/[\s_-]+/g, '-')`: collapse each maximal separator run to a
single `-` (a run member followed by another run member is dropped; the last
member of a run becomes the `-`). -/
def collapseSeps : List Char → List Char
  | [] => []
  | [c] => if isSepChar c then ['-'] else [c]
  | c :: d :: rest =>
    if isSepChar c then
      if isSepChar d then collapseSeps (d :: rest)
      else '-' :: collapseSeps (d :: rest)
    else c :: collapseSeps (d :: rest)

/-- `.replace(/^-+|-+$/g, '')`: strip leading and trailing dashes. -/
def stripDashes (l : List Char) : List Char :=
  (((l.dropWhile (fun c => c == '-')).reverse).dropWhile (fun c => c == '-')).reverse

/-- trello-branch-name.js lines 20-28. -/
def slugifyName (name : String) : String :=
  ⟨stripDashes (collapseSeps (trimChars
    ((nfkd (name.data.map toLowerAscii)).filter slugKeepChar)))⟩

/-- `split('/')` on a character. -/
def splitOnC (sep : Char) : List Char → List (List Char)
  | [] => [[]]
  | c :: r =>
    if c = sep then [] :: splitOnC sep r
    else
      match splitOnC sep r with
      | [] => [[c]]
      | h :: t => (c :: h) :: t

/-- `new URL(u).pathname` for the `http(s)` URLs handled by the script:
drop scheme and authority, keep the path up to a query/fragment.
(`new URL` on a non-URL throws, modelled as `none`.) -/
def pathnameOf (url : String) : Option (List Char) :=
  (matchScheme url.data).map (fun pr =>
    (pr.2.dropWhile (fun c => c ≠ '/')).takeWhile (fun c => c ≠ '?' && c ≠ '#'))

/-- The card data fetched by `client.get('/cards/<shortLink>')` with fields
`idShort,name`. -/
structure CardInfo where
  idShort : Nat
  name : String
deriving Repr, DecidableEq

/-- Short-form branch of `extractTicketId` (lines 51-61): `ensureConfig` and
the Trello API lookup `/cards/{shortLink}` (fields `idShort,name`) are
abstracted as the function `lookup`; `none` models a response without a
usable `idShort`.  The resulting slug is
`` `${data.idShort}-${slugifyName(data.name)}` ``. -/
def resolveShort (lookup : String → Option CardInfo) (shortLink : List Char) :
    Except String String :=
  match lookup ⟨shortLink⟩ with
  | none => .error "Unable to resolve idShort from Trello API."
  | some data => .ok (toString data.idShort ++ "-" ++ slugifyName data.name)

/-- trello-branch-name.js lines 38-63 applied to
`parts = u.pathname.split('/').filter(Boolean)`. -/
def extractFromPathname (lookup : String → Option CardInfo) (pn : List Char) :
    Except String String :=
  match (splitOnC '/' pn).filter (fun p => p ≠ []) with
  | p0 :: rest =>
    if p0 ≠ ['c'] then
      .error "URL does not look like a Trello card URL (expected path starting with /c/...)."
    else
      match rest with
      | _ :: slug :: _ => .ok ⟨slug⟩
      | [shortLink] => resolveShort lookup shortLink
      | [] => .error "Unrecognized Trello card URL format."
  | [] => .error "URL does not look like a Trello card URL (expected path starting with /c/...)."

/-- trello-branch-name.js lines 30-64: `extractTicketId`.  The result is
`Except` of the thrown error message or the printed id. -/
def extractTicketId (lookup : String → Option CardInfo) (inputUrl : String) :
    Except String String :=
  match pathnameOf inputUrl with
  | none => .error ("Invalid URL: " ++ inputUrl)
  | some pn => extractFromPathname lookup pn

/-! ## lib/trello.js : `ensureConfig` and the configuration gate (C8)

The environment variables `TRELLO_API_KEY`/`TRELLO_TOKEN` are `undefined`
(modelled `none`) or a string; a falsy value (`!TRELLO_API_KEY`) is `none`
or the empty string. -/

structure TrelloConfig where
  apiKey : Option String
  token : Option String
deriving Repr, DecidableEq

/-- Whether a configuration value is falsy. -/
def configMissing (c : TrelloConfig) : Bool :=
  c.apiKey.getD "" == "" || c.token.getD "" == ""

def ensureConfigMsg : String :=
  "Missing Trello configuration. Please set TRELLO_API_KEY and TRELLO_TOKEN in your .env"

/-- lib/trello.js `ensureConfig`: throws (modelled `.error`) when either
credential is absent. -/
def ensureConfig (c : TrelloConfig) : Except String Unit :=
  if configMissing c then .error ensureConfigMsg else .ok ()

/-- Every read/write operation of the shared client (`getMe`, `getListCards`,
`updateCardDue`, ...) first calls `ensureConfig()` and only then issues the
HTTP request; `req` stands for the request that would be issued. -/
def apiOperation (c : TrelloConfig) (req : α) : Except String α :=
  match ensureConfig c with
  | .error e => .error e
  | .ok () => .ok req

/-- Outcome of the start of an entrypoint: either the process exits with a
code and a printed message before any remote request, or execution proceeds
to the remote phase. -/
inductive MainStart where
  | exitWithError (code : Nat) (message : String)
  | proceedToRemote
deriving Repr, DecidableEq

def dueTodayMissingMsg : String :=
  "Missing Trello configuration. Please set TRELLO_API_KEY and TRELLO_TOKEN in your .env"

/-- due-today.js lines 51-57: the configuration gate of `main` — the guard on
`TRELLO_API_KEY`/`TRELLO_TOKEN` and the `ensureConfig` call both run before
the first remote call (`getMe`). -/
def dueTodayMainStart (c : TrelloConfig) : MainStart :=
  if c.apiKey.getD "" == "" || c.token.getD "" == "" then
    .exitWithError 1 dueTodayMissingMsg
  else
    match ensureConfig c with
    | .error e => .exitWithError 1 e
    | .ok () => .proceedToRemote

/-! ## mattermost.js : `postToChannel` message clipping (C9)

Lines 18-30 (and identically in the file-upload variant): the message body
actually posted is the input text, clipped to
`MAX_MESSAGE_CHARS - suffix.length - 1` characters plus the clipped-marker
suffix whenever its length exceeds `MAX_MESSAGE_CHARS`. -/

def maxMessageChars : Nat := 16383

def clipSuffix : List Char := "... (message clipped)".data

/-- The `message` field sent by `postToChannel`. -/
def postedMessage (text : String) : List Char :=
  if text.data ≠ [] ∧ text.data.length > maxMessageChars then
    text.data.take (maxMessageChars - clipSuffix.length - 1) ++ clipSuffix
  else text.data

/-! ## pr-to-trello.js : `replaceLocalhostUrls` (C3)

Lines 21-49.  Four global case-insensitive regex replacements in sequence:
1. `(https?:\/\/)(localhost|127\.0\.0\.1):3002((?:\/[^(\s)\"]*)?[^\s\)]*)?` → fixed staging base + path
2. `\b(localhost|127\.0\.0\.1):3002((?:\/[^(\s)\"]*)?[^\s\)]*)?`            → fixed staging base + path
3. `(https?:\/\/)(localhost|127\.0\.0\.1):(3000|8080)((?:\/[^(\s)\"]*)?[^\s\)]*)?` → base + path
4. `\b(localhost|127\.0\.0\.1):(3000|8080)((?:\/[^(\s)\"]*)?[^\s\)]*)?`            → base + path

A JS `replace` with the `g` flag scans the subject left to right, matching
against the original string only (replacements are assembled separately and
never rescanned within the same pass); each subsequent `replace` call scans
the full result of the previous one.  The scanner below mirrors this.

The path group `((?:\/[^(\s)\"]*)?[^\s\)]*)?` matches deterministically: an
optional `/`-led run of characters outside `( ) " \s`, then a run of
characters outside `\s )` — both greedy, with nothing after them to force
backtracking. -/

/-- Character class `[^(\s)\"]` (negated): membership in `( ) " \s`. -/
def inCls1 (c : Char) : Bool := c == '(' || c == ')' || c == '"' || isSpaceChar c

/-- Character class `[^\s\)]` (negated): membership in `\s )`. -/
def inCls2 (c : Char) : Bool := c == ')' || isSpaceChar c

/-- The path group: returns (matched path, rest of input). -/
def matchPath : List Char → List Char × List Char
  | [] => ([], [])
  | c :: t =>
    if c = '/' then
      ('/' :: (t.takeWhile (fun x => !inCls1 x) ++
        (t.dropWhile (fun x => !inCls1 x)).takeWhile (fun x => !inCls2 x)),
       (t.dropWhile (fun x => !inCls1 x)).dropWhile (fun x => !inCls2 x))
    else ((c :: t).takeWhile (fun x => !inCls2 x), (c :: t).dropWhile (fun x => !inCls2 x))

/-- `(localhost|127\.0\.0\.1)` (the alternatives cannot match at the same
position, so alternation order is immaterial). -/
def matchHost (s : List Char) : Option (List Char × List Char) :=
  match matchCI ("localhost".data) s with
  | some pr => some pr
  | none => matchCI ("127.0.0.1".data) s

/-- `\b` before the host: the host alternatives start with a word character,
so the boundary holds exactly when the preceding character (if any) is not a
word character. -/
def atBoundary : Option Char → Bool
  | none => true
  | some p => !isWordChar p

/-- Shared tail of the four patterns: after the matched port, consume the
path group and produce (consumed input, rest, replacement text). -/
def afterPort (repl pre : List Char) (o : Option (List Char × List Char)) :
    Option (List Char × List Char × List Char) :=
  o.bind (fun pr =>
    some (pre ++ pr.1 ++ (matchPath pr.2).1, ((matchPath pr.2).2, repl ++ (matchPath pr.2).1)))

/-- The fixed staging base of the 3002 special case (line 26), with a
trailing slash stripped as in the source. -/
def stripTrailingSlash (l : List Char) : List Char :=
  if l.getLast? = some '/' then l.dropLast else l

def fixed3002 : List Char :=
  stripTrailingSlash ("https://artlogic.m.staging.squidweb.org".data)

/-- Matcher of replacement 1 (`https?://` host `:3002` path). -/
def mRepl1 (_prev : Option Char) (s : List Char) :
    Option (List Char × List Char × List Char) :=
  (matchScheme s).bind (fun pr1 =>
  (matchHost pr1.2).bind (fun pr2 =>
  afterPort fixed3002 (pr1.1 ++ pr2.1) (matchCI (":3002".data) pr2.2)))

/-- Matcher of replacement 2 (`\b` host `:3002` path). -/
def mRepl2 (prev : Option Char) (s : List Char) :
    Option (List Char × List Char × List Char) :=
  if atBoundary prev then
    (matchHost s).bind (fun pr2 =>
      afterPort fixed3002 pr2.1 (matchCI (":3002".data) pr2.2))
  else none

/-- `:(3000|8080)`. -/
def matchPorts (s : List Char) : Option (List Char × List Char) :=
  (matchCI ([':']) s).bind (fun prc =>
    match matchCI ("3000".data) prc.2 with
    | some pr => some (prc.1 ++ pr.1, pr.2)
    | none => (matchCI ("8080".data) prc.2).map (fun pr => (prc.1 ++ pr.1, pr.2)))

/-- Matcher of replacement 3 (`https?://` host `:(3000|8080)` path,
replaced by the configured base). -/
def mRepl3 (base : List Char) (_prev : Option Char) (s : List Char) :
    Option (List Char × List Char × List Char) :=
  (matchScheme s).bind (fun pr1 =>
  (matchHost pr1.2).bind (fun pr2 =>
  afterPort base (pr1.1 ++ pr2.1) (matchPorts pr2.2)))

/-- Matcher of replacement 4 (`\b` host `:(3000|8080)` path). -/
def mRepl4 (base : List Char) (prev : Option Char) (s : List Char) :
    Option (List Char × List Char × List Char) :=
  if atBoundary prev then
    (matchHost s).bind (fun pr2 =>
      afterPort base pr2.1 (matchPorts pr2.2))
  else none

/-- Left-to-right global-replace scan.  `prev` is the character before the
current position in the subject (for `\b`); on a match the replacement is
emitted and scanning resumes after the consumed text.  The fuel argument
(instantiated with the subject length) only serves termination; every
matcher above consumes at least one character on success. -/
def scanAux (m : Option Char → List Char → Option (List Char × List Char × List Char)) :
    Option Char → Nat → List Char → List Char
  | _, 0, s => s
  | _, _ + 1, [] => []
  | prev, fuel + 1, c :: rest =>
    match m prev (c :: rest) with
    | some (consumed, after, repl) =>
      repl ++ scanAux m (consumed.getLast?.orElse (fun _ => prev)) fuel after
    | none => c :: scanAux m (some c) fuel rest

/-- One `text.replace(pattern, fn)` pass. -/
def replacePass (m : Option Char → List Char → Option (List Char × List Char × List Char))
    (s : List Char) : List Char :=
  scanAux m none s.length s

/-- pr-to-trello.js lines 21-49: `replaceLocalhostUrls(text, baseUrl)`. -/
def replaceLocalhostUrls (text baseUrl : String) : String :=
  if text.data = [] ∨ baseUrl.data = [] then text
  else
    let base := stripTrailingSlash baseUrl.data
    ⟨replacePass (mRepl4 base)
      (replacePass (mRepl3 base)
        (replacePass mRepl2
          (replacePass mRepl1 text.data)))⟩

/-! ## Auxiliary predicates used in theorem statements -/

/-- Boolean list-prefix test (for stating which digit prefix a port has). -/
def hasPrefixC : List Char → List Char → Bool
  | [], _ => true
  | _ :: _, [] => false
  | p :: ps, c :: cs => c == p && hasPrefixC ps cs

/-- Characters allowed in the host part of the configured staging base in
the C3 theorem family. -/
def baseHostChar (c : Char) : Bool := isAsciiLower c || c == '.'

/-- Characters allowed in the short-link and slug segments of a card URL in
the C6 theorem family (no path, query or fragment delimiters). -/
def urlSegChar (c : Char) : Bool := !(c == '/') && !(c == '?') && !(c == '#')

/-!
# Theorems
-/

/-! ### C1 : `isPastDueButNotToday` day comparison -/

/-- C1: for a due timestamp whose calendar day is strictly before the
current day, `isPastDueButNotToday` returns true; for a due timestamp on
today's date (any time of day), it returns false. -/
theorem isPastDueButNotToday_day_correct (due now : DateTime) :
    (dateLt due now = true → isPastDueButNotToday (some due) now = true) ∧
    (dateTriple due = dateTriple now → isPastDueButNotToday (some due) now = false) := by
  constructor
  · intro h
    have hne : dateTriple due ≠ dateTriple now := by
      intro heq
      have h1 : due.year = now.year ∧ due.month = now.month ∧ due.day = now.day := by
        simpa [dateTriple, Prod.ext_iff] using heq
      simp [dateLt, h1.1, h1.2.1, h1.2.2] at h
    simp [isPastDueButNotToday, h, hne]
  · intro heq
    simp [isPastDueButNotToday, heq]

theorem isPastDueButNotToday_day_correct_witness :
    isPastDueButNotToday (some ⟨2025, 3, 1, 10, 0⟩) ⟨2025, 3, 2, 9, 0⟩ = true ∧
    isPastDueButNotToday (some ⟨2025, 3, 2, 23, 59⟩) ⟨2025, 3, 2, 9, 0⟩ = false :=
  ⟨(isPastDueButNotToday_day_correct ⟨2025, 3, 1, 10, 0⟩ ⟨2025, 3, 2, 9, 0⟩).1 (by decide),
   (isPastDueButNotToday_day_correct ⟨2025, 3, 2, 23, 59⟩ ⟨2025, 3, 2, 9, 0⟩).2 (by decide)⟩

/-! ### C10 : cards without a due date are never selected -/

/-- C10: a missing due value makes `isPastDueButNotToday` false, so a card
with no due date never appears among the filtered candidates of the
due-date updater. -/
theorem noDueDate_never_selected :
    (∀ now, isPastDueButNotToday none now = false) ∧
    (∀ cards myId now c, c ∈ candidateCards cards myId now → c.due ≠ none) := by
  refine ⟨fun _ => rfl, ?_⟩
  intro cards myId now c hc hdue
  have hp := (List.mem_filter.mp hc).2
  rw [hdue] at hp
  simp [isPastDueButNotToday] at hp

theorem noDueDate_never_selected_witness :
    isPastDueButNotToday none ⟨2025, 3, 2, 9, 0⟩ = false ∧
    (Card.mk "id1" "n" (some ⟨2025, 3, 1, 10, 0⟩) ["me"]).due ≠ none :=
  ⟨noDueDate_never_selected.1 ⟨2025, 3, 2, 9, 0⟩,
   noDueDate_never_selected.2 [⟨"id1", "n", some ⟨2025, 3, 1, 10, 0⟩, ["me"]⟩]
     "me" ⟨2025, 3, 2, 9, 0⟩ ⟨"id1", "n", some ⟨2025, 3, 1, 10, 0⟩, ["me"]⟩ (by decide)⟩

/-! ### C2 : the batch-update scheduling clock -/

theorem confirmedOf_cons (c : Card) (b : Bool) (rest : List (Card × Bool)) :
    confirmedOf ((c, b) :: rest) =
      if b then c :: confirmedOf rest else confirmedOf rest := by
  cases b <;> simp [confirmedOf, List.filter_cons]

theorem scheduleFrom_get (cs : List Card) (slot0 : Nat) (k : Nat)
    (hk : k < cs.length) :
    (scheduleFrom cs slot0)[k]? =
      some ((cs.get ⟨k, hk⟩).id, slot0 + incrementMinutes * k) := by
  induction cs generalizing slot0 k with
  | nil => simp at hk
  | cons c rest ih =>
    cases k with
    | zero => simp [scheduleFrom]
    | succ k =>
      have hk2 : k < rest.length := Nat.lt_of_succ_lt_succ hk
      have := ih (slot0 + incrementMinutes) k hk2
      simp only [scheduleFrom, List.getElem?_cons_succ, this, List.get_eq_getElem,
        List.getElem_cons_succ]
      congr 2
      simp [incrementMinutes]
      omega

/-- C2: the batch loop issues one due-date mutation per confirmed card, in
order, with the slot advancing by `incrementMinutes` only on confirmation —
so the k-th confirmed card (0-based) receives `slot0 + incrementMinutes * k`
no matter how many declined cards lie in between. -/
theorem dueTodayBatch_correct (items : List (Card × Bool)) (slot0 : Nat) :
    runBatch items slot0 = scheduleFrom (confirmedOf items) slot0 ∧
    ∀ k (hk : k < (confirmedOf items).length),
      (runBatch items slot0)[k]? =
        some (((confirmedOf items).get ⟨k, hk⟩).id, slot0 + incrementMinutes * k) := by
  have main : ∀ (its : List (Card × Bool)) (s : Nat),
      runBatch its s = scheduleFrom (confirmedOf its) s := by
    intro its
    induction its with
    | nil => intro s; rfl
    | cons p rest ih =>
      intro s
      obtain ⟨c, b⟩ := p
      rw [confirmedOf_cons]
      cases b with
      | true => simp only [runBatch, if_true, ite_true, scheduleFrom, ih]
      | false => simp only [runBatch, if_false, ite_false, Bool.false_eq_true, ih]
  refine ⟨main items slot0, ?_⟩
  intro k hk
  rw [main items slot0]
  exact scheduleFrom_get _ _ _ hk

theorem dueTodayBatch_correct_witness :
    (runBatch [(⟨"c1", "a", none, []⟩, true), (⟨"c2", "b", none, []⟩, false),
               (⟨"c3", "c", none, []⟩, true)] 540)[1]? = some ("c3", 555) :=
  ((dueTodayBatch_correct
      [(⟨"c1", "a", none, []⟩, true), (⟨"c2", "b", none, []⟩, false),
       (⟨"c3", "c", none, []⟩, true)] 540).2 1 (by decide)).trans (by decide)

/-! ### C8 : configuration gate -/

/-- C8: when `TRELLO_API_KEY` or `TRELLO_TOKEN` is absent, `ensureConfig`
throws the descriptive error, the due-today entrypoint exits with code 1 and
the printed message before its first remote call, and every shared-client
operation fails before issuing its request. -/
theorem configGate_correct (c : TrelloConfig) (h : configMissing c = true) :
    ensureConfig c = .error ensureConfigMsg ∧
    dueTodayMainStart c = .exitWithError 1 dueTodayMissingMsg ∧
    ∀ (α : Type) (req : α), apiOperation c req = .error ensureConfigMsg := by
  have h2 : (c.apiKey.getD "" == "" || c.token.getD "" == "") = true := h
  refine ⟨?_, ?_, ?_⟩
  · simp [ensureConfig, h]
  · simp [dueTodayMainStart, h2]
  · intro α req
    simp [apiOperation, ensureConfig, h]

theorem configGate_correct_witness :
    ensureConfig ⟨none, some "tok"⟩ = .error ensureConfigMsg ∧
    dueTodayMainStart ⟨none, some "tok"⟩ = .exitWithError 1 dueTodayMissingMsg ∧
    apiOperation ⟨none, some "tok"⟩ "GET /members/me" = .error ensureConfigMsg :=
  ⟨(configGate_correct ⟨none, some "tok"⟩ (by decide)).1,
   (configGate_correct ⟨none, some "tok"⟩ (by decide)).2.1,
   (configGate_correct ⟨none, some "tok"⟩ (by decide)).2.2 String "GET /members/me"⟩

/-! ### C9 : message clipping -/

theorem clipSuffix_length : clipSuffix.length = 21 := rfl

/-- C9: the message posted by `postToChannel` never exceeds
`maxMessageChars` characters; text within the limit is sent verbatim, and
longer text is clipped and terminated by the clipped-marker suffix. -/
theorem postedMessage_correct (text : String) :
    (postedMessage text).length ≤ maxMessageChars ∧
    (text.data.length ≤ maxMessageChars → postedMessage text = text.data) ∧
    (text.data.length > maxMessageChars →
      postedMessage text =
        text.data.take (maxMessageChars - clipSuffix.length - 1) ++ clipSuffix ∧
      clipSuffix <:+ postedMessage text) := by
  by_cases h : text.data.length > maxMessageChars
  · have hne : text.data ≠ [] := by
      intro he
      rw [he] at h
      simp [maxMessageChars] at h
    have heq : postedMessage text =
        text.data.take (maxMessageChars - clipSuffix.length - 1) ++ clipSuffix := by
      unfold postedMessage
      rw [if_pos ⟨hne, h⟩]
    refine ⟨?_, ?_, fun _ => ⟨heq, ?_⟩⟩
    · rw [heq]
      simp only [List.length_append, List.length_take, clipSuffix_length]
      simp only [maxMessageChars]
      omega
    · intro hle
      exact absurd h (Nat.not_lt.mpr hle)
    · rw [heq]
      exact List.suffix_append _ _
  · have heq : postedMessage text = text.data := by
      unfold postedMessage
      exact if_neg fun hand => absurd hand.2 h
    refine ⟨?_, fun _ => heq, fun hgt => absurd hgt h⟩
    rw [heq]
    exact Nat.le_of_not_lt h

theorem postedMessage_correct_witness :
    postedMessage "hi" = "hi".data ∧
    postedMessage ⟨List.replicate 16384 'a'⟩ =
      List.replicate 16361 'a' ++ clipSuffix := by
  constructor
  · exact (postedMessage_correct "hi").2.1 (by decide)
  · have hgt : (String.mk (List.replicate 16384 'a')).data.length > maxMessageChars := by
      rw [show (String.mk (List.replicate 16384 'a')).data = List.replicate 16384 'a' from rfl,
        List.length_replicate]
      decide
    have h := ((postedMessage_correct ⟨List.replicate 16384 'a'⟩).2.2 hgt).1
    rw [h, show maxMessageChars - clipSuffix.length - 1 = 16361 from rfl,
      show (String.mk (List.replicate 16384 'a')).data = List.replicate 16384 'a' from rfl,
      List.take_replicate]
    rw [show min 16361 16384 = 16361 from rfl]

/-! ### C4 : `parseTime` -/

theorem takeWhile_digits_append (d : List Char) (c : Char) (t : List Char)
    (hd : ∀ x ∈ d, isDigitChar x = true) (hc : isDigitChar c = false) :
    (d ++ c :: t).takeWhile isDigitChar = d ∧
    (d ++ c :: t).dropWhile isDigitChar = c :: t := by
  induction d with
  | nil => simp [List.takeWhile_cons, List.dropWhile_cons, hc]
  | cons x d2 ih =>
    have hx : isDigitChar x = true := hd x (by simp)
    have ih2 := ih (fun y hy => hd y (by simp [hy]))
    simp [List.takeWhile_cons, List.dropWhile_cons, hx, ih2.1, ih2.2]

/-- The leftmost digit run immediately followed by the marker is captured. -/
theorem execNum_hit (marker : Char) (d t : List Char) (hne : d ≠ [])
    (hd : ∀ x ∈ d, isDigitChar x = true) (hm : isDigitChar marker = false) :
    execNum marker (d ++ marker :: t) = some (digitsToNat d) := by
  obtain ⟨x, d2, rfl⟩ := List.exists_cons_of_ne_nil hne
  have hx : isDigitChar x = true := hd x (by simp)
  have hsp := takeWhile_digits_append (x :: d2) marker t hd hm
  show execNum marker (x :: (d2 ++ marker :: t)) = _
  rw [execNum]
  simp only [hx, if_true]
  rw [show x :: (d2 ++ marker :: t) = (x :: d2) ++ marker :: t from rfl,
    hsp.1, hsp.2]
  simp

/-- A digit run followed by a non-digit character other than the marker is
skipped entirely (restarting at each position inside the run also fails). -/
theorem execNum_skip (marker : Char) (d : List Char) (c : Char) (t : List Char)
    (hd : ∀ x ∈ d, isDigitChar x = true) (hc : isDigitChar c = false)
    (hcm : c ≠ marker) :
    execNum marker (d ++ c :: t) = execNum marker t := by
  induction d with
  | nil =>
    show execNum marker (c :: t) = _
    rw [execNum]
    simp [hc]
  | cons x d2 ih =>
    have hx : isDigitChar x = true := hd x (by simp)
    have hsp := takeWhile_digits_append (x :: d2) c t hd hc
    have ih2 := ih (fun y hy => hd y (by simp [hy]))
    show execNum marker (x :: (d2 ++ c :: t)) = _
    rw [execNum]
    simp only [hx, if_true]
    rw [show x :: (d2 ++ c :: t) = (x :: d2) ++ c :: t from rfl, hsp.2]
    simp only [List.head?_cons]
    rw [if_neg (by simp [hcm])]
    exact ih2

/-- A trailing all-digit run (nothing after it) yields no match. -/
theorem execNum_digits_end (marker : Char) (d : List Char)
    (hd : ∀ x ∈ d, isDigitChar x = true) :
    execNum marker d = none := by
  induction d with
  | nil => rfl
  | cons x d2 ih =>
    have hx : isDigitChar x = true := hd x (by simp)
    have hall : ∀ y ∈ x :: d2, isDigitChar y = true := hd
    have hdrop : (x :: d2).dropWhile isDigitChar = [] := by
      rw [List.dropWhile_eq_nil_iff]
      intro y hy
      exact hall y hy
    rw [execNum]
    simp only [hx, if_true, hdrop]
    rw [if_neg (by simp)]
    exact ih (fun y hy => hd y (by simp [hy]))

theorem filter_junk (j : List Char) (hj : ∀ c ∈ j, keepChar c = false) :
    j.filter keepChar = [] := by
  induction j with
  | nil => rfl
  | cons c j2 ih =>
    rw [List.filter_cons, if_neg (by simp [hj c (by simp)])]
    exact ih (fun y hy => hj y (by simp [hy]))

theorem filter_digits (d : List Char) (hd : ∀ c ∈ d, isDigitChar c = true) :
    d.filter keepChar = d := by
  induction d with
  | nil => rfl
  | cons c d2 ih =>
    have : keepChar c = true := by simp [keepChar, hd c (by simp)]
    rw [List.filter_cons, if_pos (by simp [this])]
    rw [ih (fun y hy => hd y (by simp [hy]))]

theorem keepChar_h : keepChar 'h' = true := rfl

theorem keepChar_m : keepChar 'm' = true := rfl

/-- C4: `parseTime` on the documented examples, on empty/non-string input,
and in general: a string made of an hours part and/or a minutes part,
surrounded by characters outside the kept class `[0-9hm]` (spaces,
invisible characters, ...), parses to `60*h + m`. -/
theorem parseTime_correct :
    parseTime (some "1h 22m") = 82 ∧
    parseTime (some "45m") = 45 ∧
    parseTime (some "") = 0 ∧
    parseTime none = 0 ∧
    (∀ j1 hd j2 md j3 : List Char,
      hd ≠ [] → (∀ c ∈ hd, isDigitChar c = true) →
      md ≠ [] → (∀ c ∈ md, isDigitChar c = true) →
      (∀ c ∈ j1, keepChar c = false) → (∀ c ∈ j2, keepChar c = false) →
      (∀ c ∈ j3, keepChar c = false) →
      parseTime (some ⟨j1 ++ hd ++ 'h' :: j2 ++ md ++ 'm' :: j3⟩) =
        digitsToNat hd * 60 + digitsToNat md) ∧
    (∀ j1 hd j2 : List Char,
      hd ≠ [] → (∀ c ∈ hd, isDigitChar c = true) →
      (∀ c ∈ j1, keepChar c = false) → (∀ c ∈ j2, keepChar c = false) →
      parseTime (some ⟨j1 ++ hd ++ 'h' :: j2⟩) = digitsToNat hd * 60) ∧
    (∀ j1 md j2 : List Char,
      md ≠ [] → (∀ c ∈ md, isDigitChar c = true) →
      (∀ c ∈ j1, keepChar c = false) → (∀ c ∈ j2, keepChar c = false) →
      parseTime (some ⟨j1 ++ md ++ 'm' :: j2⟩) = digitsToNat md) := by
  refine ⟨by decide, by decide, by decide, rfl, ?_, ?_, ?_⟩
  · intro j1 hd j2 md j3 hhne hhd hmne hmd hj1 hj2 hj3
    have hne : (j1 ++ hd ++ 'h' :: j2 ++ md ++ 'm' :: j3) ≠ [] := by
      simp [List.append_eq_nil]
    have hclean : (j1 ++ hd ++ 'h' :: j2 ++ md ++ 'm' :: j3).filter keepChar =
        hd ++ 'h' :: (md ++ 'm' :: []) := by
      simp only [List.filter_append, List.filter_cons, keepChar_h, keepChar_m,
        if_true, filter_junk j1 hj1, filter_junk j2 hj2, filter_junk j3 hj3,
        filter_digits hd hhd, filter_digits md hmd]
      simp
    show parseTime (some ⟨_⟩) = _
    rw [parseTime]
    simp only [String.data]
    rw [if_neg hne, hclean]
    rw [execNum_hit 'h' hd (md ++ 'm' :: []) hhne hhd (by decide)]
    rw [show hd ++ 'h' :: (md ++ 'm' :: []) = hd ++ 'h' :: (md ++ 'm' :: []) from rfl]
    rw [execNum_skip 'm' hd 'h' (md ++ 'm' :: []) hhd (by decide) (by decide)]
    rw [execNum_hit 'm' md [] hmne hmd (by decide)]
    simp
  · intro j1 hd j2 hhne hhd hj1 hj2
    have hne : (j1 ++ hd ++ 'h' :: j2) ≠ [] := by simp [List.append_eq_nil]
    have hclean : (j1 ++ hd ++ 'h' :: j2).filter keepChar = hd ++ 'h' :: [] := by
      simp only [List.filter_append, List.filter_cons, keepChar_h, if_true,
        filter_junk j1 hj1, filter_junk j2 hj2, filter_digits hd hhd]
      simp
    show parseTime (some ⟨_⟩) = _
    rw [parseTime]
    simp only [String.data]
    rw [if_neg hne, hclean]
    rw [execNum_hit 'h' hd [] hhne hhd (by decide)]
    rw [execNum_skip 'm' hd 'h' [] hhd (by decide) (by decide)]
    simp [execNum]
  · intro j1 md j2 hmne hmd hj1 hj2
    have hne : (j1 ++ md ++ 'm' :: j2) ≠ [] := by simp [List.append_eq_nil]
    have hclean : (j1 ++ md ++ 'm' :: j2).filter keepChar = md ++ 'm' :: [] := by
      simp only [List.filter_append, List.filter_cons, keepChar_m, if_true,
        filter_junk j1 hj1, filter_junk j2 hj2, filter_digits md hmd]
      simp
    show parseTime (some ⟨_⟩) = _
    rw [parseTime]
    simp only [String.data]
    rw [if_neg hne, hclean]
    rw [execNum_skip 'h' md 'm' [] hmd (by decide) (by decide)]
    rw [execNum_hit 'm' md [] hmne hmd (by decide)]
    simp [execNum]

theorem parseTime_correct_witness :
    parseTime (some ⟨['x', '1', 'h', ' ', '2', '2', 'm', '!']⟩) = 82 :=
  (parseTime_correct.2.2.2.2.1 ['x'] ['1'] [' '] ['2', '2'] ['!']
    (by decide) (by decide) (by decide) (by decide)
    (by decide) (by decide) (by decide)).trans (by decide)

/-! ### C5 : `groupPlanywayTickets` -/

theorem firstSeen_nil : firstSeen [] = [] := by
  rw [firstSeen]

theorem firstSeen_cons (a : String) (l : List String) :
    firstSeen (a :: l) = a :: firstSeen (l.filter (fun b => b ≠ a)) := by
  rw [firstSeen]

theorem firstSeen_mem_aux :
    ∀ (n : Nat) (l : List String), l.length ≤ n →
      ∀ a, (a ∈ firstSeen l ↔ a ∈ l) := by
  intro n
  induction n with
  | zero =>
    intro l hl a
    rw [List.length_eq_zero.mp (Nat.le_zero.mp hl), firstSeen_nil]
  | succ n ih =>
    intro l hl a
    cases l with
    | nil => rw [firstSeen_nil]
    | cons b l2 =>
      rw [firstSeen_cons]
      have hlen : (l2.filter (fun c => c ≠ b)).length ≤ n :=
        le_trans (List.length_filter_le _ _) (Nat.le_of_succ_le_succ hl)
      by_cases hab : a = b
      · subst hab
        simp
      · simp only [List.mem_cons, hab, false_or]
        rw [ih _ hlen a]
        simp [List.mem_filter, hab]

theorem firstSeen_mem (a : String) (l : List String) :
    a ∈ firstSeen l ↔ a ∈ l :=
  firstSeen_mem_aux l.length l (le_refl _) a

theorem firstSeen_nodup_aux :
    ∀ (n : Nat) (l : List String), l.length ≤ n → (firstSeen l).Nodup := by
  intro n
  induction n with
  | zero =>
    intro l hl
    rw [List.length_eq_zero.mp (Nat.le_zero.mp hl), firstSeen_nil]
    exact List.nodup_nil
  | succ n ih =>
    intro l hl
    cases l with
    | nil => rw [firstSeen_nil]; exact List.nodup_nil
    | cons b l2 =>
      rw [firstSeen_cons]
      have hlen : (l2.filter (fun c => c ≠ b)).length ≤ n :=
        le_trans (List.length_filter_le _ _) (Nat.le_of_succ_le_succ hl)
      refine List.Nodup.cons ?_ (ih _ hlen)
      intro hb
      have := (firstSeen_mem b _).mp hb
      have := (List.mem_filter.mp this).2
      simp at this

/-- The `seen`-set loop computes first-seen deduplication. -/
theorem uniqueNamesAux_eq (ts : List Ticket) :
    ∀ (seen : List String),
      uniqueNamesAux ts seen =
        firstSeen ((ts.map Ticket.name).filter (fun n => n ∉ seen)) := by
  induction ts with
  | nil => intro seen; simp [uniqueNamesAux, firstSeen_nil]
  | cons t rest ih =>
    intro seen
    by_cases hm : t.name ∈ seen
    · rw [uniqueNamesAux, if_pos hm]
      simp only [List.map_cons, List.filter_cons]
      rw [if_neg (by simp [hm])]
      exact ih seen
    · rw [uniqueNamesAux, if_neg hm]
      simp only [List.map_cons, List.filter_cons]
      rw [if_pos (by simp [hm])]
      rw [firstSeen_cons, ih (t.name :: seen)]
      congr 1
      rw [List.filter_filter]
      congr 1
      apply List.filter_congr
      intro n _
      by_cases h1 : n = t.name
      · simp [h1]
      · simp [h1, List.mem_cons]

/-- C5: the grouping produces exactly one group per distinct entry name, in
first-seen order, and each group's total is the sum of the parsed durations
of the entries bearing that name. -/
theorem groupPlanyway_correct (tickets : List Ticket) :
    (groupPlanywayTickets tickets).map Prod.fst = firstSeen (tickets.map Ticket.name) ∧
    ((groupPlanywayTickets tickets).map Prod.fst).Nodup ∧
    (∀ n, n ∈ (groupPlanywayTickets tickets).map Prod.fst ↔
      n ∈ tickets.map Ticket.name) ∧
    (∀ g ∈ groupPlanywayTickets tickets,
      g.2 = ((tickets.filter (fun t => t.name == g.1)).map
              (fun t => parseTime (some t.time))).sum) := by
  have hfst : (groupPlanywayTickets tickets).map Prod.fst =
      firstSeen (tickets.map Ticket.name) := by
    rw [groupPlanywayTickets, List.map_map]
    rw [show (Prod.fst ∘ fun n =>
      (n, ((tickets.filter (fun t => t.name == n)).map
            (fun t => parseTime (some t.time))).sum)) = id from rfl]
    rw [List.map_id]
    rw [uniqueNamesAux_eq tickets []]
    congr 1
    simp
  refine ⟨hfst, ?_, ?_, ?_⟩
  · rw [hfst]
    exact firstSeen_nodup_aux _ _ (le_refl _)
  · intro n
    rw [hfst, firstSeen_mem]
  · intro g hg
    obtain ⟨n, _, rfl⟩ := List.mem_map.mp hg
    rfl

theorem groupPlanyway_correct_witness :
    (("a", 75) : String × Nat).2 =
      ((([⟨"a", "1h"⟩, ⟨"b", "30m"⟩, ⟨"a", "15m"⟩] : List Ticket).filter
          (fun t => t.name == (("a", 75) : String × Nat).1)).map
        (fun t => parseTime (some t.time))).sum :=
  (groupPlanyway_correct [⟨"a", "1h"⟩, ⟨"b", "30m"⟩, ⟨"a", "15m"⟩]).2.2.2
    ("a", 75) (by decide)

/-! ### C7 : `parsePrUrl` -/

theorem obind_some {α β : Type} (a : α) (f : α → Option β) :
    (Option.some a).bind f = f a := rfl

theorem takeWhile_stops (p : Char → Bool) (l : List Char) (c : Char) (t : List Char)
    (hl : ∀ x ∈ l, p x = true) (hc : p c = false) :
    (l ++ c :: t).takeWhile p = l ∧ (l ++ c :: t).dropWhile p = c :: t := by
  induction l with
  | nil => simp [List.takeWhile_cons, List.dropWhile_cons, hc]
  | cons x l2 ih =>
    have hx : p x = true := hl x (by simp)
    have ih2 := ih (fun y hy => hl y (by simp [hy]))
    simp [List.takeWhile_cons, List.dropWhile_cons, hx, ih2.1, ih2.2]

theorem takeWhile_all (p : Char → Bool) (l : List Char)
    (hl : ∀ x ∈ l, p x = true) :
    l.takeWhile p = l ∧ l.dropWhile p = [] := by
  induction l with
  | nil => simp
  | cons x l2 ih =>
    have hx : p x = true := hl x (by simp)
    have ih2 := ih (fun y hy => hl y (by simp [hy]))
    simp [List.takeWhile_cons, List.dropWhile_cons, hx, ih2.1, ih2.2]

/-- C7 counterexample to "a string not of the form
`https://github.com/<owner>/<repo>/pull/<n>` returns null": the regex is
anchored only at the start, so trailing path segments after the number are
accepted. -/
theorem parsePrUrl_cex :
    parsePrUrl (some "https://github.com/o/r/pull/7/files") =
      some ⟨"o", "r", 7⟩ := by decide

theorem parsePrUrl_mk (l : List Char) :
    parsePrUrl (some ⟨l⟩) = if l = [] then none else parsePrUrlCore l := rfl

theorem parsePrUrlCore_gh (x : List Char) :
    parsePrUrlCore ("https://github.com/".data ++ x) = prStep1 x := rfl

theorem prStep1_run (owner r : List Char) (ho : owner ≠ [])
    (ho2 : ∀ c ∈ owner, c ≠ '/') :
    prStep1 (owner ++ '/' :: r) = prStep2 owner r := by
  have hsp := takeWhile_stops (fun c => decide (c ≠ '/')) owner '/' r
    (fun x hx => by simpa using ho2 x hx) (by simp)
  unfold prStep1
  rw [hsp.1, hsp.2, if_neg ho,
    show matchCI (['/']) ('/' :: r) = some (['/'], r) from rfl, obind_some]

theorem prStep2_run (owner repo q : List Char) (hr : repo ≠ [])
    (hr2 : ∀ c ∈ repo, c ≠ '/') :
    prStep2 owner (repo ++ '/' :: ("pull/".data ++ q)) = prStep3 owner repo q := by
  have hsp := takeWhile_stops (fun c => decide (c ≠ '/')) repo '/'
    ("pull/".data ++ q) (fun x hx => by simpa using hr2 x hx) (by simp)
  unfold prStep2
  rw [hsp.1, hsp.2, if_neg hr,
    show matchCI ("/pull/".data) ('/' :: ("pull/".data ++ q)) =
      some ("/pull/".data, q) from rfl, obind_some]

theorem prStep3_run (owner repo ds tl : List Char) (hd : ds ≠ [])
    (hd2 : ∀ c ∈ ds, isDigitChar c = true)
    (ht : ∀ c ∈ tl.take 1, isDigitChar c = false) :
    prStep3 owner repo (ds ++ tl) = some ⟨⟨owner⟩, ⟨repo⟩, digitsToNat ds⟩ := by
  unfold prStep3
  cases tl with
  | nil =>
    rw [List.append_nil, (takeWhile_all isDigitChar ds hd2).1, if_neg hd]
  | cons c t2 =>
    have hc : isDigitChar c = false := ht c (by simp)
    rw [(takeWhile_stops isDigitChar ds c t2 hd2 hc).1, if_neg hd]

/-- C7 (amended): a well-formed PR URL parses to its components, and this
extends to any string that merely begins with such a URL — the text after
the digit run (itself ended by the first non-digit) is ignored.  Falsy or
non-matching inputs give no result. -/
theorem parsePrUrl_amended :
    parsePrUrl none = none ∧
    parsePrUrl (some "") = none ∧
    parsePrUrl (some "github.com/o/r/pull/7") = none ∧
    (∀ owner repo ds tl : List Char,
      owner ≠ [] → (∀ c ∈ owner, c ≠ '/') →
      repo ≠ [] → (∀ c ∈ repo, c ≠ '/') →
      ds ≠ [] → (∀ c ∈ ds, isDigitChar c = true) →
      (∀ c ∈ tl.take 1, isDigitChar c = false) →
      parsePrUrl (some ⟨"https://github.com/".data ++ (owner ++ '/' :: (repo ++
          '/' :: ("pull/".data ++ (ds ++ tl))))⟩) =
        some ⟨⟨owner⟩, ⟨repo⟩, digitsToNat ds⟩) := by
  refine ⟨rfl, by decide, by decide, ?_⟩
  intro owner repo ds tl ho ho2 hr hr2 hd hd2 ht
  have hne : ("https://github.com/".data ++ (owner ++ '/' :: (repo ++
      '/' :: ("pull/".data ++ (ds ++ tl))))) ≠ [] := List.cons_ne_nil _ _
  rw [parsePrUrl_mk, if_neg hne, parsePrUrlCore_gh,
    prStep1_run _ _ ho ho2, prStep2_run _ _ _ hr hr2,
    prStep3_run _ _ _ _ hd hd2 ht]

theorem parsePrUrl_amended_witness :
    parsePrUrl (some ⟨"https://github.com/".data ++ (['o'] ++ '/' :: (['r'] ++
      '/' :: ("pull/".data ++ (['7'] ++ ['/', 'f']))))⟩) = some ⟨"o", "r", 7⟩ :=
  (parsePrUrl_amended.2.2.2 ['o'] ['r'] ['7'] ['/', 'f']
    (by decide) (by decide) (by decide) (by decide) (by decide) (by decide)
    (by decide)).trans (by decide)

/-! ### C6 : `extractTicketId` -/

theorem urlSegChar_spec (c : Char) (h : urlSegChar c = true) :
    c ≠ '/' ∧ c ≠ '?' ∧ c ≠ '#' := by
  simp [urlSegChar] at h
  exact ⟨h.1.1, h.1.2, h.2⟩

theorem splitOnC_cons (sep c : Char) (r : List Char) :
    splitOnC sep (c :: r) =
      if c = sep then [] :: splitOnC sep r
      else
        match splitOnC sep r with
        | [] => [[c]]
        | h :: t => (c :: h) :: t := rfl

theorem splitOnC_seg (sep : Char) (l r : List Char) (hl : ∀ c ∈ l, c ≠ sep) :
    splitOnC sep (l ++ sep :: r) = l :: splitOnC sep r := by
  induction l with
  | nil =>
    show splitOnC sep (sep :: r) = [] :: splitOnC sep r
    rw [splitOnC_cons, if_pos rfl]
  | cons c l2 ih =>
    have hc : c ≠ sep := hl c (by simp)
    have ih2 := ih (fun y hy => hl y (by simp [hy]))
    show splitOnC sep (c :: (l2 ++ sep :: r)) = (c :: l2) :: splitOnC sep r
    rw [splitOnC_cons, if_neg hc, ih2]

theorem splitOnC_noSep (sep : Char) (l : List Char) (hl : ∀ c ∈ l, c ≠ sep) :
    splitOnC sep l = [l] := by
  induction l with
  | nil => rfl
  | cons c l2 ih =>
    have hc : c ≠ sep := hl c (by simp)
    have ih2 := ih (fun y hy => hl y (by simp [hy]))
    show splitOnC sep (c :: l2) = [c :: l2]
    rw [splitOnC_cons, if_neg hc, ih2]

theorem pathnameOf_trello (x : List Char)
    (hx : ∀ c ∈ x, (decide (c ≠ '?') && decide (c ≠ '#')) = true) :
    pathnameOf ⟨"https://trello.com/c/".data ++ x⟩ =
      some ('/' :: 'c' :: '/' :: x) := by
  have e : pathnameOf ⟨"https://trello.com/c/".data ++ x⟩ =
      some ('/' :: 'c' :: '/' ::
        x.takeWhile (fun c => decide (c ≠ '?') && decide (c ≠ '#'))) := rfl
  rw [e, (takeWhile_all _ x hx).1]

theorem extractTicketId_pn (lookup : String → Option CardInfo) (u : String)
    (pn : List Char) (h : pathnameOf u = some pn) :
    extractTicketId lookup u = extractFromPathname lookup pn := by
  unfold extractTicketId
  rw [h]

/-- C6: a full-form card URL `https://trello.com/c/<short>/<slug>` yields the
existing slug segment unchanged, for every possible lookup behaviour (so no
API call can influence the result); a short-form URL
`https://trello.com/c/<short>` resolves the card through the lookup and
yields `"<idShort>-<slugified-name>"`. -/
theorem extractTicketId_correct :
    (∀ (lookup : String → Option CardInfo) (short slug : List Char),
      short ≠ [] → (∀ c ∈ short, urlSegChar c = true) →
      slug ≠ [] → (∀ c ∈ slug, urlSegChar c = true) →
      extractTicketId lookup ⟨"https://trello.com/c/".data ++ (short ++ '/' :: slug)⟩ =
        .ok ⟨slug⟩) ∧
    (∀ (lookup : String → Option CardInfo) (short : List Char) (card : CardInfo),
      short ≠ [] → (∀ c ∈ short, urlSegChar c = true) →
      lookup ⟨short⟩ = some card →
      extractTicketId lookup ⟨"https://trello.com/c/".data ++ short⟩ =
        .ok (toString card.idShort ++ "-" ++ slugifyName card.name)) := by
  constructor
  · intro lookup short slug hs hs2 hg hg2
    have hx : ∀ c ∈ short ++ '/' :: slug,
        (decide (c ≠ '?') && decide (c ≠ '#')) = true := by
      intro c hc
      rcases List.mem_append.mp hc with h1 | h1
      · have := urlSegChar_spec c (hs2 c h1)
        simp [this.2.1, this.2.2]
      · rcases List.mem_cons.mp h1 with h2 | h2
        · subst h2; decide
        · have := urlSegChar_spec c (hg2 c h2)
          simp [this.2.1, this.2.2]
    rw [extractTicketId_pn lookup _ _ (pathnameOf_trello _ hx)]
    have hparts : (splitOnC '/' ('/' :: 'c' :: '/' :: (short ++ '/' :: slug))).filter
        (fun p => p ≠ []) = [['c'], short, slug] := by
      have e : splitOnC '/' ('/' :: 'c' :: '/' :: (short ++ '/' :: slug)) =
          [] :: ['c'] :: splitOnC '/' (short ++ '/' :: slug) := rfl
      rw [e, splitOnC_seg '/' short slug
          (fun c hc => (urlSegChar_spec c (hs2 c hc)).1),
        splitOnC_noSep '/' slug
          (fun c hc => (urlSegChar_spec c (hg2 c hc)).1)]
      simp [List.filter_cons, hs, hg]
    unfold extractFromPathname
    rw [hparts]
    rfl
  · intro lookup short card hs hs2 hl
    have hx : ∀ c ∈ short, (decide (c ≠ '?') && decide (c ≠ '#')) = true := by
      intro c hc
      have := urlSegChar_spec c (hs2 c hc)
      simp [this.2.1, this.2.2]
    rw [extractTicketId_pn lookup _ _ (pathnameOf_trello _ hx)]
    have hparts : (splitOnC '/' ('/' :: 'c' :: '/' :: short)).filter
        (fun p => p ≠ []) = [['c'], short] := by
      have e : splitOnC '/' ('/' :: 'c' :: '/' :: short) =
          [] :: ['c'] :: splitOnC '/' short := rfl
      rw [e, splitOnC_noSep '/' short
        (fun c hc => (urlSegChar_spec c (hs2 c hc)).1)]
      simp [List.filter_cons, hs]
    unfold extractFromPathname
    rw [hparts]
    show resolveShort lookup short = _
    unfold resolveShort
    rw [hl]

theorem extractTicketId_correct_witness :
    extractTicketId (fun _ => some ⟨9614, "Command palette"⟩)
      ⟨"https://trello.com/c/".data ++ (['H', 'e'] ++ '/' :: ['9', '-', 'x'])⟩ =
      .ok "9-x" ∧
    extractTicketId (fun _ => some ⟨9614, "Command palette"⟩)
      ⟨"https://trello.com/c/".data ++ ['H', 'e']⟩ = .ok "9614-command-palette" :=
  ⟨(extractTicketId_correct.1 (fun _ => some ⟨9614, "Command palette"⟩)
      ['H', 'e'] ['9', '-', 'x'] (by decide) (by decide) (by decide)
      (by decide)).trans rfl,
   ((extractTicketId_correct.2 (fun _ => some ⟨9614, "Command palette"⟩)
      ['H', 'e'] ⟨9614, "Command palette"⟩ (by decide) (by decide)
      rfl).trans rfl)⟩

/-! ### C3 : `replaceLocalhostUrls` — scanner lemmas -/

/-- The character preceding the current scan position, given the already
scanned prefix `pre` (and the character before the whole scan, `prev`). -/
def prevAt (prev : Option Char) (pre : List Char) : Option Char :=
  pre.getLast?.orElse (fun _ => prev)

theorem prevAt_cons (prev : Option Char) (c : Char) (pre : List Char) :
    prevAt prev (c :: pre) = prevAt (some c) pre := by
  cases pre with
  | nil => rfl
  | cons d t =>
    unfold prevAt
    rw [List.getLast?_cons_cons]
    have hx : ∃ x, (d :: t).getLast? = some x := by
      induction t generalizing d with
      | nil => exact ⟨d, rfl⟩
      | cons e t2 ih => rw [List.getLast?_cons_cons]; exact ih e
    obtain ⟨x, hxe⟩ := hx
    rw [hxe]
    rfl

theorem scanAux_nil (m : Option Char → List Char → Option (List Char × List Char × List Char))
    (prev : Option Char) (fuel : Nat) : scanAux m prev fuel [] = [] := by
  cases fuel <;> rfl

theorem scanAux_cons_none (m : Option Char → List Char → Option (List Char × List Char × List Char))
    (prev : Option Char) (c : Char) (rest : List Char) (f : Nat)
    (h : m prev (c :: rest) = none) :
    scanAux m prev (f + 1) (c :: rest) = c :: scanAux m (some c) f rest := by
  conv_lhs => unfold scanAux
  rw [h]

theorem scanAux_cons_some (m : Option Char → List Char → Option (List Char × List Char × List Char))
    (prev : Option Char) (c : Char) (rest : List Char) (f : Nat)
    (con aft rp : List Char) (h : m prev (c :: rest) = some (con, aft, rp)) :
    scanAux m prev (f + 1) (c :: rest) =
      rp ++ scanAux m (con.getLast?.orElse (fun _ => prev)) f aft := by
  conv_lhs => unfold scanAux
  rw [h]

theorem scanAux_id (m : Option Char → List Char → Option (List Char × List Char × List Char)) :
    ∀ (fuel : Nat) (s : List Char) (prev : Option Char), s.length ≤ fuel →
      (∀ pre suf, s = pre ++ suf → suf ≠ [] → m (prevAt prev pre) suf = none) →
      scanAux m prev fuel s = s := by
  intro fuel
  induction fuel with
  | zero =>
    intro s prev hl _
    rw [List.length_eq_zero.mp (Nat.le_zero.mp hl)]
    rfl
  | succ f ih =>
    intro s prev hl hnm
    cases s with
    | nil => rfl
    | cons c rest =>
      have h0 : m prev (c :: rest) = none :=
        hnm [] (c :: rest) rfl (List.cons_ne_nil _ _)
      rw [scanAux_cons_none m prev c rest f h0]
      congr 1
      apply ih rest (some c) (Nat.le_of_succ_le_succ hl)
      intro pre suf heq hne
      have h2 := hnm (c :: pre) suf (by rw [heq]; rfl) hne
      rwa [prevAt_cons] at h2

/-- A pass whose matcher fails at every position leaves the text unchanged. -/
theorem replacePass_id (m : Option Char → List Char → Option (List Char × List Char × List Char))
    (s : List Char)
    (h : ∀ pre suf, s = pre ++ suf → suf ≠ [] → m (prevAt none pre) suf = none) :
    replacePass m s = s :=
  scanAux_id m s.length s none (le_refl _) h

/-- A pass whose matcher consumes the whole text at position 0 produces
exactly the replacement. -/
theorem replacePass_full (m : Option Char → List Char → Option (List Char × List Char × List Char))
    (s rp : List Char) (hne : s ≠ [])
    (h : ∃ con, m none s = some (con, ([], rp))) : replacePass m s = rp := by
  obtain ⟨con, hcon⟩ := h
  obtain ⟨c, rest, rfl⟩ := List.exists_cons_of_ne_nil hne
  unfold replacePass
  rw [show (c :: rest).length = rest.length + 1 from rfl,
    scanAux_cons_some m none c rest rest.length con [] rp hcon,
    scanAux_nil, List.append_nil]

/-- Extending a position-wise no-match property by one leading character. -/
theorem noMatch_cons {m : Option Char → List Char → Option (List Char × List Char × List Char)}
    {prev : Option Char} {c : Char} {t : List Char}
    (h0 : m prev (c :: t) = none)
    (h1 : ∀ pre suf, t = pre ++ suf → suf ≠ [] → m (prevAt (some c) pre) suf = none) :
    ∀ pre suf, (c :: t) = pre ++ suf → suf ≠ [] → m (prevAt prev pre) suf = none := by
  intro pre suf heq hne
  cases pre with
  | nil =>
    simp only [List.nil_append] at heq
    rw [← heq]
    exact h0
  | cons c2 pre2 =>
    simp only [List.cons_append, List.cons.injEq] at heq
    obtain ⟨rfl, ht⟩ := heq
    rw [prevAt_cons]
    exact h1 pre2 suf ht hne

/-- A matcher that fails on every colon-free subject fails at every position
of a colon-free tail. -/
theorem noMatch_of_colonFree {m : Option Char → List Char → Option (List Char × List Char × List Char)}
    (hm : ∀ (p : Option Char) (s : List Char), ':' ∉ s → m p s = none)
    {t : List Char} (ht : ':' ∉ t) (prev : Option Char) :
    ∀ pre suf, t = pre ++ suf → suf ≠ [] → m (prevAt prev pre) suf = none := by
  intro pre suf heq _
  apply hm
  intro hc
  exact ht (heq ▸ List.mem_append.mpr (Or.inr hc))

/-! ### C3 : matcher failure on colon-free text

All four patterns require a literal `:` (in the scheme or before the port),
so none of them can match inside text that contains no colon. -/

theorem charMatchCI_colon (c : Char) (h : charMatchCI ':' c = true) : c = ':' := by
  simp only [charMatchCI, isAsciiLower] at h
  simp only [show (decide ('a' ≤ ':') && decide (':' ≤ 'z')) = false from rfl,
    Bool.false_and, Bool.or_false] at h
  exact eq_of_beq h

theorem matchCI_rest (pat : List Char) :
    ∀ (s : List Char) (pr : List Char × List Char),
      matchCI pat s = some pr → pr.2 <:+ s := by
  induction pat with
  | nil =>
    intro s pr h
    simp only [matchCI, Option.some.injEq] at h
    subst h
    exact List.suffix_rfl
  | cons p ps ih =>
    intro s pr h
    cases s with
    | nil => simp [matchCI] at h
    | cons c cs =>
      simp only [matchCI] at h
      by_cases hb : charMatchCI p c = true
      · rw [if_pos hb] at h
        obtain ⟨pr2, hpr2, hmap⟩ := Option.map_eq_some'.mp h
        have := ih cs pr2 hpr2
        rw [← hmap]
        exact this.trans (List.suffix_cons c cs)
      · rw [if_neg hb] at h
        cases h

theorem matchCI_colon_mem (pat : List Char) :
    ∀ (s : List Char) (pr : List Char × List Char), ':' ∈ pat →
      matchCI pat s = some pr → ':' ∈ s := by
  induction pat with
  | nil => intro s pr hp; cases hp
  | cons p ps ih =>
    intro s pr hp h
    cases s with
    | nil => simp [matchCI] at h
    | cons c cs =>
      simp only [matchCI] at h
      by_cases hb : charMatchCI p c = true
      · rw [if_pos hb] at h
        rcases List.mem_cons.mp hp with hp1 | hp1
        · rw [← hp1] at hb
          rw [charMatchCI_colon c hb]
          simp
        · obtain ⟨pr2, hpr2, _⟩ := Option.map_eq_some'.mp h
          exact List.mem_cons_of_mem c (ih cs pr2 hp1 hpr2)
      · rw [if_neg hb] at h
        cases h

theorem matchScheme_colon (s : List Char) (pr : List Char × List Char)
    (h : matchScheme s = some pr) : ':' ∈ s := by
  unfold matchScheme at h
  cases h1 : matchCI ("http".data) s with
  | none => rw [h1] at h; cases h
  | some pr1 =>
    rw [h1, obind_some] at h
    have hsub := (matchCI_rest ("http".data) s pr1 h1).subset
    cases h2 : matchCI ("s://".data) pr1.2 with
    | some pr2 =>
      exact hsub (matchCI_colon_mem _ _ _ (by decide) h2)
    | none =>
      rw [h2] at h
      obtain ⟨pr3, hpr3, _⟩ := Option.map_eq_some'.mp h
      exact hsub (matchCI_colon_mem _ _ _ (by decide) hpr3)

theorem matchHost_rest (s : List Char) (pr : List Char × List Char)
    (h : matchHost s = some pr) : pr.2 <:+ s := by
  unfold matchHost at h
  cases h1 : matchCI ("localhost".data) s with
  | some pr1 =>
    rw [h1] at h
    cases h
    exact matchCI_rest _ s _ h1
  | none =>
    rw [h1] at h
    exact matchCI_rest _ s _ h

theorem matchPorts_colon (r : List Char) (pr : List Char × List Char)
    (h : matchPorts r = some pr) : ':' ∈ r := by
  unfold matchPorts at h
  cases h1 : matchCI ([':']) r with
  | none => rw [h1] at h; cases h
  | some prc =>
    exact matchCI_colon_mem _ _ _ (by decide) h1

theorem afterPort_none (rp pre : List Char) : afterPort rp pre none = none := rfl

theorem mRepl1_colonFree (p : Option Char) (s : List Char) (h : ':' ∉ s) :
    mRepl1 p s = none := by
  cases h1 : matchScheme s with
  | none => simp [mRepl1, h1]
  | some pr1 => exact absurd (matchScheme_colon s pr1 h1) h

theorem mRepl2_colonFree (p : Option Char) (s : List Char) (h : ':' ∉ s) :
    mRepl2 p s = none := by
  unfold mRepl2
  by_cases hb : atBoundary p = true
  · rw [if_pos hb]
    cases h2 : matchHost s with
    | none => rfl
    | some pr2 =>
      rw [obind_some]
      cases h3 : matchCI (":3002".data) pr2.2 with
      | none => exact afterPort_none _ _
      | some pr3 =>
        have : ':' ∈ pr2.2 := matchCI_colon_mem _ _ _ (by decide) h3
        exact absurd ((matchHost_rest s pr2 h2).subset this) h
  · rw [if_neg hb]

theorem mRepl3_colonFree (base : List Char) (p : Option Char) (s : List Char)
    (h : ':' ∉ s) : mRepl3 base p s = none := by
  cases h1 : matchScheme s with
  | none => simp [mRepl3, h1]
  | some pr1 => exact absurd (matchScheme_colon s pr1 h1) h

theorem mRepl4_colonFree (base : List Char) (p : Option Char) (s : List Char)
    (h : ':' ∉ s) : mRepl4 base p s = none := by
  unfold mRepl4
  by_cases hb : atBoundary p = true
  · rw [if_pos hb]
    cases h2 : matchHost s with
    | none => rfl
    | some pr2 =>
      rw [obind_some]
      cases h3 : matchPorts pr2.2 with
      | none => exact afterPort_none _ _
      | some pr3 =>
        have : ':' ∈ pr2.2 := matchPorts_colon _ _ h3
        exact absurd ((matchHost_rest s pr2 h2).subset this) h
  · rw [if_neg hb]

/-! ### C3 : single-position matcher lemmas -/

theorem matchHost_localhost (r : List Char) :
    matchHost ("localhost".data ++ r) = some ("localhost".data, r) := rfl

theorem matchHost_ip (r : List Char) :
    matchHost ("127.0.0.1".data ++ r) = some ("127.0.0.1".data, r) := rfl

theorem digit_ne_colon (c : Char) (h : isDigitChar c = true) : c ≠ ':' :=
  fun he => absurd (he ▸ h) (by decide)

theorem inCls2_digit (c : Char) (h : isDigitChar c = true) : inCls2 c = false := by
  have hb : 48 ≤ c.toNat ∧ c.toNat ≤ 57 := by simpa [isDigitChar] using h
  have hne : c ≠ ')' := fun he => absurd (he ▸ h) (by decide)
  apply Bool.eq_false_iff.mpr
  intro hc
  simp only [inCls2, isSpaceChar, Bool.or_eq_true, beq_iff_eq,
    Bool.and_eq_true, decide_eq_true_eq] at hc
  rcases hc with hc | hc
  · exact hne hc
  · omega

/-- On an all-digit tail the path group consumes everything. -/
theorem matchPath_digits (l : List Char) (hd : ∀ c ∈ l, isDigitChar c = true) :
    matchPath l = (l, []) := by
  cases l with
  | nil => rfl
  | cons d t =>
    have hdd := hd d (by simp)
    have hslash : d ≠ '/' := fun he => absurd (he ▸ hdd) (by decide)
    have e : matchPath (d :: t) =
        if d = '/' then
          ('/' :: (t.takeWhile (fun x => !inCls1 x) ++
            (t.dropWhile (fun x => !inCls1 x)).takeWhile (fun x => !inCls2 x)),
           (t.dropWhile (fun x => !inCls1 x)).dropWhile (fun x => !inCls2 x))
        else ((d :: t).takeWhile (fun x => !inCls2 x),
          (d :: t).dropWhile (fun x => !inCls2 x)) := rfl
    rw [e, if_neg hslash]
    have hall : ∀ c ∈ d :: t, (!inCls2 c) = true := by
      intro c hc
      rw [inCls2_digit c (hd c hc)]
      rfl
    rw [(takeWhile_all _ _ hall).1, (takeWhile_all _ _ hall).2]

/-- A plain (letter-free) literal pattern fails when it is not a prefix. -/
theorem matchCI_plain_none :
    ∀ (pat : List Char), (∀ p ∈ pat, isAsciiLower p = false) →
      ∀ s : List Char, hasPrefixC pat s = false → matchCI pat s = none := by
  intro pat
  induction pat with
  | nil =>
    intro _ s h
    simp [hasPrefixC] at h
  | cons p ps ih =>
    intro hplain s h
    cases s with
    | nil => rfl
    | cons c cs =>
      simp only [hasPrefixC] at h
      by_cases hc : (c == p) = true
      · rw [hc, Bool.true_and] at h
        have hch : charMatchCI p c = true := by simp [charMatchCI, hc]
        show (if charMatchCI p c then (matchCI ps cs).map _ else none) = none
        rw [if_pos hch, ih (fun q hq => hplain q (by simp [hq])) cs h]
        rfl
      · have hch : charMatchCI p c = false := by
          simp only [charMatchCI, hplain p (by simp), Bool.false_and,
            Bool.or_false]
          exact Bool.not_eq_true _ ▸ (by simpa using hc)
        show (if charMatchCI p c then (matchCI ps cs).map _ else none) = none
        rw [if_neg (by simp [hch])]

theorem m1_start_none (host ds : List Char)
    (hh : matchHost (host ++ ':' :: ds) = some (host, ':' :: ds))
    (h : matchCI ("3002".data) ds = none) :
    mRepl1 none ("http://".data ++ (host ++ ':' :: ds)) = none := by
  show ((matchHost (host ++ ':' :: ds)).bind (fun pr2 =>
    afterPort fixed3002 ("http://".data ++ pr2.1)
      (matchCI (":3002".data) pr2.2))) = none
  rw [hh, obind_some]
  show afterPort fixed3002 ("http://".data ++ host)
    (matchCI (":3002".data) (':' :: ds)) = none
  rw [show matchCI (":3002".data) (':' :: ds) =
    (matchCI ("3002".data) ds).map (fun pr => (':' :: pr.1, pr.2)) from rfl, h]
  rfl

theorem m2_start_none (p : Option Char) (host ds : List Char)
    (hb : atBoundary p = true)
    (hh : matchHost (host ++ ':' :: ds) = some (host, ':' :: ds))
    (h : matchCI ("3002".data) ds = none) :
    mRepl2 p (host ++ ':' :: ds) = none := by
  unfold mRepl2
  rw [if_pos hb, hh, obind_some]
  show afterPort fixed3002 host (matchCI (":3002".data) (':' :: ds)) = none
  rw [show matchCI (":3002".data) (':' :: ds) =
    (matchCI ("3002".data) ds).map (fun pr => (':' :: pr.1, pr.2)) from rfl, h]
  rfl

theorem matchPorts_none (ds : List Char)
    (h1 : matchCI ("3000".data) ds = none)
    (h2 : matchCI ("8080".data) ds = none) : matchPorts (':' :: ds) = none := by
  show (match matchCI ("3000".data) ds with
    | some pr => some ((([':'] : List Char)) ++ pr.1, pr.2)
    | none => (matchCI ("8080".data) ds).map (fun pr => ([':'] ++ pr.1, pr.2))) = none
  rw [h1, h2]
  rfl

theorem m3_start_none (base host ds : List Char)
    (hh : matchHost (host ++ ':' :: ds) = some (host, ':' :: ds))
    (h1 : matchCI ("3000".data) ds = none)
    (h2 : matchCI ("8080".data) ds = none) :
    mRepl3 base none ("http://".data ++ (host ++ ':' :: ds)) = none := by
  show ((matchHost (host ++ ':' :: ds)).bind (fun pr2 =>
    afterPort base ("http://".data ++ pr2.1) (matchPorts pr2.2))) = none
  rw [hh, obind_some]
  show afterPort base ("http://".data ++ host) (matchPorts (':' :: ds)) = none
  rw [matchPorts_none ds h1 h2]
  rfl

theorem m4_start_none (base : List Char) (p : Option Char) (host ds : List Char)
    (hb : atBoundary p = true)
    (hh : matchHost (host ++ ':' :: ds) = some (host, ':' :: ds))
    (h1 : matchCI ("3000".data) ds = none)
    (h2 : matchCI ("8080".data) ds = none) :
    mRepl4 base p (host ++ ':' :: ds) = none := by
  unfold mRepl4
  rw [if_pos hb, hh, obind_some]
  show afterPort base host (matchPorts (':' :: ds)) = none
  rw [matchPorts_none ds h1 h2]
  rfl

theorem m1_hit (host ds2 : List Char)
    (hh : matchHost (host ++ ':' :: ("3002".data ++ ds2)) =
      some (host, ':' :: ("3002".data ++ ds2)))
    (hp : matchPath ds2 = (ds2, [])) :
    ∃ con, mRepl1 none ("http://".data ++ (host ++ ':' :: ("3002".data ++ ds2))) =
      some (con, ([], fixed3002 ++ ds2)) := by
  refine ⟨(("http://".data ++ host) ++ (":3002".data : List Char)) ++ ds2, ?_⟩
  show ((matchHost (host ++ ':' :: ("3002".data ++ ds2))).bind (fun pr2 =>
    afterPort fixed3002 ("http://".data ++ pr2.1)
      (matchCI (":3002".data) pr2.2))) = _
  rw [hh, obind_some]
  show afterPort fixed3002 ("http://".data ++ host)
    (matchCI (":3002".data) (':' :: ("3002".data ++ ds2))) = _
  rw [show matchCI (":3002".data) (':' :: ("3002".data ++ ds2)) =
    some ((":3002".data : List Char), ds2) from rfl]
  show some ((("http://".data ++ host) ++ (":3002".data : List Char)) ++ (matchPath ds2).1,
    ((matchPath ds2).2, fixed3002 ++ (matchPath ds2).1)) = _
  rw [hp]

theorem matchPorts_3000 (ds2 : List Char) :
    matchPorts (':' :: ("3000".data ++ ds2)) = some ((":3000".data : List Char), ds2) := rfl

theorem matchPorts_8080 (ds2 : List Char) :
    matchPorts (':' :: ("8080".data ++ ds2)) = some ((":8080".data : List Char), ds2) := rfl

theorem m3_hit (base host pd ds2 : List Char)
    (hpm : matchPorts (':' :: (pd ++ ds2)) = some (':' :: pd, ds2))
    (hh : matchHost (host ++ ':' :: (pd ++ ds2)) = some (host, ':' :: (pd ++ ds2)))
    (hp : matchPath ds2 = (ds2, [])) :
    ∃ con, mRepl3 base none ("http://".data ++ (host ++ ':' :: (pd ++ ds2))) =
      some (con, ([], base ++ ds2)) := by
  refine ⟨(("http://".data ++ host) ++ (':' :: pd)) ++ ds2, ?_⟩
  show ((matchHost (host ++ ':' :: (pd ++ ds2))).bind (fun pr2 =>
    afterPort base ("http://".data ++ pr2.1) (matchPorts pr2.2))) = _
  rw [hh, obind_some]
  show afterPort base ("http://".data ++ host)
    (matchPorts (':' :: (pd ++ ds2))) = _
  rw [hpm]
  show some ((("http://".data ++ host) ++ (':' :: pd)) ++ (matchPath ds2).1,
    ((matchPath ds2).2, base ++ (matchPath ds2).1)) = _
  rw [hp]

/-! ### C3 : position-wise no-match chains

Each lemma walks the (concrete part of the) subject position by position:
at each position the matcher fails either by direct computation (`rfl`), via
the port hypotheses (at the scheme/host positions), or because the remaining
tail contains no colon. -/

theorem nmT1loc (ds : List Char) (h : matchCI ("3002".data) ds = none)
    (hcol : (':' : Char) ∉ ds) :
    ∀ pre suf, ("http://".data ++ ("localhost".data ++ ':' :: ds)) = pre ++ suf →
      suf ≠ [] → mRepl1 (prevAt none pre) suf = none :=
  noMatch_cons (m1_start_none ("localhost".data) ds (matchHost_localhost (':' :: ds)) h)
  (noMatch_cons rfl
  (noMatch_cons rfl
  (noMatch_cons rfl
  (noMatch_cons rfl
  (noMatch_cons rfl
  (noMatch_cons rfl
  (noMatch_cons rfl
  (noMatch_cons rfl
  (noMatch_cons rfl
  (noMatch_cons rfl
  (noMatch_cons rfl
  (noMatch_cons rfl
  (noMatch_cons rfl
  (noMatch_cons rfl
  (noMatch_cons rfl
  (noMatch_cons rfl
  (noMatch_of_colonFree mRepl1_colonFree hcol (some ':'))))))))))))))))))

theorem nmT2loc (ds : List Char) (h : matchCI ("3002".data) ds = none)
    (hcol : (':' : Char) ∉ ds) :
    ∀ pre suf, ("http://".data ++ ("localhost".data ++ ':' :: ds)) = pre ++ suf →
      suf ≠ [] → mRepl2 (prevAt none pre) suf = none :=
  noMatch_cons rfl
  (noMatch_cons rfl
  (noMatch_cons rfl
  (noMatch_cons rfl
  (noMatch_cons rfl
  (noMatch_cons rfl
  (noMatch_cons rfl
  (noMatch_cons (m2_start_none (some '/') ("localhost".data) ds rfl (matchHost_localhost (':' :: ds)) h)
  (noMatch_cons rfl
  (noMatch_cons rfl
  (noMatch_cons rfl
  (noMatch_cons rfl
  (noMatch_cons rfl
  (noMatch_cons rfl
  (noMatch_cons rfl
  (noMatch_cons rfl
  (noMatch_cons rfl
  (noMatch_of_colonFree mRepl2_colonFree hcol (some ':'))))))))))))))))))

theorem nmT3loc (base ds : List Char)
    (h1 : matchCI ("3000".data) ds = none) (h2 : matchCI ("8080".data) ds = none)
    (hcol : (':' : Char) ∉ ds) :
    ∀ pre suf, ("http://".data ++ ("localhost".data ++ ':' :: ds)) = pre ++ suf →
      suf ≠ [] → mRepl3 base (prevAt none pre) suf = none :=
  noMatch_cons (m3_start_none base ("localhost".data) ds (matchHost_localhost (':' :: ds)) h1 h2)
  (noMatch_cons rfl
  (noMatch_cons rfl
  (noMatch_cons rfl
  (noMatch_cons rfl
  (noMatch_cons rfl
  (noMatch_cons rfl
  (noMatch_cons rfl
  (noMatch_cons rfl
  (noMatch_cons rfl
  (noMatch_cons rfl
  (noMatch_cons rfl
  (noMatch_cons rfl
  (noMatch_cons rfl
  (noMatch_cons rfl
  (noMatch_cons rfl
  (noMatch_cons rfl
  (noMatch_of_colonFree (mRepl3_colonFree base) hcol (some ':'))))))))))))))))))

theorem nmT4loc (base ds : List Char)
    (h1 : matchCI ("3000".data) ds = none) (h2 : matchCI ("8080".data) ds = none)
    (hcol : (':' : Char) ∉ ds) :
    ∀ pre suf, ("http://".data ++ ("localhost".data ++ ':' :: ds)) = pre ++ suf →
      suf ≠ [] → mRepl4 base (prevAt none pre) suf = none :=
  noMatch_cons rfl
  (noMatch_cons rfl
  (noMatch_cons rfl
  (noMatch_cons rfl
  (noMatch_cons rfl
  (noMatch_cons rfl
  (noMatch_cons rfl
  (noMatch_cons (m4_start_none base (some '/') ("localhost".data) ds rfl (matchHost_localhost (':' :: ds)) h1 h2)
  (noMatch_cons rfl
  (noMatch_cons rfl
  (noMatch_cons rfl
  (noMatch_cons rfl
  (noMatch_cons rfl
  (noMatch_cons rfl
  (noMatch_cons rfl
  (noMatch_cons rfl
  (noMatch_cons rfl
  (noMatch_of_colonFree (mRepl4_colonFree base) hcol (some ':'))))))))))))))))))

theorem nmT1ip (ds : List Char) (h : matchCI ("3002".data) ds = none)
    (hcol : (':' : Char) ∉ ds) :
    ∀ pre suf, ("http://".data ++ ("127.0.0.1".data ++ ':' :: ds)) = pre ++ suf →
      suf ≠ [] → mRepl1 (prevAt none pre) suf = none :=
  noMatch_cons (m1_start_none ("127.0.0.1".data) ds (matchHost_ip (':' :: ds)) h)
  (noMatch_cons rfl
  (noMatch_cons rfl
  (noMatch_cons rfl
  (noMatch_cons rfl
  (noMatch_cons rfl
  (noMatch_cons rfl
  (noMatch_cons rfl
  (noMatch_cons rfl
  (noMatch_cons rfl
  (noMatch_cons rfl
  (noMatch_cons rfl
  (noMatch_cons rfl
  (noMatch_cons rfl
  (noMatch_cons rfl
  (noMatch_cons rfl
  (noMatch_cons rfl
  (noMatch_of_colonFree mRepl1_colonFree hcol (some ':'))))))))))))))))))

theorem nmT2ip (ds : List Char) (h : matchCI ("3002".data) ds = none)
    (hcol : (':' : Char) ∉ ds) :
    ∀ pre suf, ("http://".data ++ ("127.0.0.1".data ++ ':' :: ds)) = pre ++ suf →
      suf ≠ [] → mRepl2 (prevAt none pre) suf = none :=
  noMatch_cons rfl
  (noMatch_cons rfl
  (noMatch_cons rfl
  (noMatch_cons rfl
  (noMatch_cons rfl
  (noMatch_cons rfl
  (noMatch_cons rfl
  (noMatch_cons (m2_start_none (some '/') ("127.0.0.1".data) ds rfl (matchHost_ip (':' :: ds)) h)
  (noMatch_cons rfl
  (noMatch_cons rfl
  (noMatch_cons rfl
  (noMatch_cons rfl
  (noMatch_cons rfl
  (noMatch_cons rfl
  (noMatch_cons rfl
  (noMatch_cons rfl
  (noMatch_cons rfl
  (noMatch_of_colonFree mRepl2_colonFree hcol (some ':'))))))))))))))))))

theorem nmT3ip (base ds : List Char)
    (h1 : matchCI ("3000".data) ds = none) (h2 : matchCI ("8080".data) ds = none)
    (hcol : (':' : Char) ∉ ds) :
    ∀ pre suf, ("http://".data ++ ("127.0.0.1".data ++ ':' :: ds)) = pre ++ suf →
      suf ≠ [] → mRepl3 base (prevAt none pre) suf = none :=
  noMatch_cons (m3_start_none base ("127.0.0.1".data) ds (matchHost_ip (':' :: ds)) h1 h2)
  (noMatch_cons rfl
  (noMatch_cons rfl
  (noMatch_cons rfl
  (noMatch_cons rfl
  (noMatch_cons rfl
  (noMatch_cons rfl
  (noMatch_cons rfl
  (noMatch_cons rfl
  (noMatch_cons rfl
  (noMatch_cons rfl
  (noMatch_cons rfl
  (noMatch_cons rfl
  (noMatch_cons rfl
  (noMatch_cons rfl
  (noMatch_cons rfl
  (noMatch_cons rfl
  (noMatch_of_colonFree (mRepl3_colonFree base) hcol (some ':'))))))))))))))))))

theorem nmT4ip (base ds : List Char)
    (h1 : matchCI ("3000".data) ds = none) (h2 : matchCI ("8080".data) ds = none)
    (hcol : (':' : Char) ∉ ds) :
    ∀ pre suf, ("http://".data ++ ("127.0.0.1".data ++ ':' :: ds)) = pre ++ suf →
      suf ≠ [] → mRepl4 base (prevAt none pre) suf = none :=
  noMatch_cons rfl
  (noMatch_cons rfl
  (noMatch_cons rfl
  (noMatch_cons rfl
  (noMatch_cons rfl
  (noMatch_cons rfl
  (noMatch_cons rfl
  (noMatch_cons (m4_start_none base (some '/') ("127.0.0.1".data) ds rfl (matchHost_ip (':' :: ds)) h1 h2)
  (noMatch_cons rfl
  (noMatch_cons rfl
  (noMatch_cons rfl
  (noMatch_cons rfl
  (noMatch_cons rfl
  (noMatch_cons rfl
  (noMatch_cons rfl
  (noMatch_cons rfl
  (noMatch_cons rfl
  (noMatch_of_colonFree (mRepl4_colonFree base) hcol (some ':'))))))))))))))))))

theorem nmF2 (ds2 : List Char)
    (hcol : (':' : Char) ∉ ("artlogic.m.staging.squidweb.org".data ++ ds2)) :
    ∀ pre suf, ("https://artlogic.m.staging.squidweb.org".data ++ ds2) = pre ++ suf →
      suf ≠ [] → mRepl2 (prevAt none pre) suf = none :=
  noMatch_cons rfl
  (noMatch_cons rfl
  (noMatch_cons rfl
  (noMatch_cons rfl
  (noMatch_cons rfl
  (noMatch_cons rfl
  (noMatch_cons rfl
  (noMatch_cons rfl
  (noMatch_of_colonFree mRepl2_colonFree hcol (some '/')))))))))

theorem nmF3 (base ds2 : List Char)
    (hcol : (':' : Char) ∉ ("artlogic.m.staging.squidweb.org".data ++ ds2)) :
    ∀ pre suf, ("https://artlogic.m.staging.squidweb.org".data ++ ds2) = pre ++ suf →
      suf ≠ [] → mRepl3 base (prevAt none pre) suf = none :=
  noMatch_cons rfl
  (noMatch_cons rfl
  (noMatch_cons rfl
  (noMatch_cons rfl
  (noMatch_cons rfl
  (noMatch_cons rfl
  (noMatch_cons rfl
  (noMatch_cons rfl
  (noMatch_of_colonFree (mRepl3_colonFree base) hcol (some '/')))))))))

theorem nmF4 (base ds2 : List Char)
    (hcol : (':' : Char) ∉ ("artlogic.m.staging.squidweb.org".data ++ ds2)) :
    ∀ pre suf, ("https://artlogic.m.staging.squidweb.org".data ++ ds2) = pre ++ suf →
      suf ≠ [] → mRepl4 base (prevAt none pre) suf = none :=
  noMatch_cons rfl
  (noMatch_cons rfl
  (noMatch_cons rfl
  (noMatch_cons rfl
  (noMatch_cons rfl
  (noMatch_cons rfl
  (noMatch_cons rfl
  (noMatch_cons rfl
  (noMatch_of_colonFree (mRepl4_colonFree base) hcol (some '/')))))))))

theorem nmB4 (base x : List Char) (hcol : (':' : Char) ∉ x) :
    ∀ pre suf, ("https://".data ++ x) = pre ++ suf →
      suf ≠ [] → mRepl4 base (prevAt none pre) suf = none :=
  noMatch_cons rfl
  (noMatch_cons rfl
  (noMatch_cons rfl
  (noMatch_cons rfl
  (noMatch_cons rfl
  (noMatch_cons rfl
  (noMatch_cons rfl
  (noMatch_cons rfl
  (noMatch_of_colonFree (mRepl4_colonFree base) hcol (some '/')))))))))

/-! ### C3 : assembling the four passes -/

theorem replaceLocalhostUrls_mk (t b : List Char) (ht : t ≠ []) (hb : b ≠ []) :
    replaceLocalhostUrls ⟨t⟩ ⟨b⟩ =
      ⟨replacePass (mRepl4 (stripTrailingSlash b))
        (replacePass (mRepl3 (stripTrailingSlash b))
          (replacePass mRepl2 (replacePass mRepl1 t)))⟩ := by
  unfold replaceLocalhostUrls
  rw [if_neg (fun hor => hor.elim (fun h => ht h) (fun h => hb h))]

theorem getLast?_some_of_ne_nil (l : List Char) (h : l ≠ []) :
    ∃ x, l.getLast? = some x := by
  obtain ⟨c, t, rfl⟩ := List.exists_cons_of_ne_nil h
  induction t generalizing c with
  | nil => exact ⟨c, rfl⟩
  | cons d t2 ih => rw [List.getLast?_cons_cons]; exact ih d (List.cons_ne_nil _ _)

theorem stripTS_base (bh : List Char) (hbh : bh ≠ [])
    (hbh2 : ∀ c ∈ bh, baseHostChar c = true) :
    stripTrailingSlash ("https://".data ++ bh) = "https://".data ++ bh := by
  obtain ⟨x, hx⟩ := getLast?_some_of_ne_nil bh hbh
  have hxm : x ∈ bh := List.mem_of_mem_getLast? (Option.mem_def.mpr hx)
  have hxs : x ≠ '/' := fun he => absurd (hbh2 x hxm) (by rw [he]; decide)
  unfold stripTrailingSlash
  rw [if_neg]
  intro hc
  rw [List.getLast?_append, hx] at hc
  simp only [Option.or_some, Option.some.injEq] at hc
  exact hxs hc

/-- C3 (amended): on a localhost URL, a port whose digit string starts with
`3002` is rewritten to the fixed staging base — regardless of the configured
base — with the digits after the `3002` prefix glued onto it; a port starting
with `3000` or `8080` is rewritten onto the configured base the same way; a
port with none of these digit prefixes is left unchanged. -/
theorem replaceLocalhostUrls_amended (bh : List Char) (hbh : bh ≠ [])
    (hbh2 : ∀ c ∈ bh, baseHostChar c = true) (host : List Char)
    (hhost : host = "localhost".data ∨ host = "127.0.0.1".data)
    (ds2 : List Char) (hds2 : ∀ c ∈ ds2, isDigitChar c = true) :
    (replaceLocalhostUrls ⟨"http://".data ++ (host ++ ':' :: ("3002".data ++ ds2))⟩
        ⟨"https://".data ++ bh⟩ = ⟨fixed3002 ++ ds2⟩) ∧
    (replaceLocalhostUrls ⟨"http://".data ++ (host ++ ':' :: ("3000".data ++ ds2))⟩
        ⟨"https://".data ++ bh⟩ = ⟨"https://".data ++ (bh ++ ds2)⟩) ∧
    (replaceLocalhostUrls ⟨"http://".data ++ (host ++ ':' :: ("8080".data ++ ds2))⟩
        ⟨"https://".data ++ bh⟩ = ⟨"https://".data ++ (bh ++ ds2)⟩) ∧
    (∀ ds : List Char, ds ≠ [] → (∀ c ∈ ds, isDigitChar c = true) →
      hasPrefixC ("3002".data) ds = false → hasPrefixC ("3000".data) ds = false →
      hasPrefixC ("8080".data) ds = false →
      replaceLocalhostUrls ⟨"http://".data ++ (host ++ ':' :: ds)⟩
          ⟨"https://".data ++ bh⟩ =
        ⟨"http://".data ++ (host ++ ':' :: ds)⟩) := by
  have hbne : ("https://".data ++ bh) ≠ ([] : List Char) := List.cons_ne_nil _ _
  have hcolds2 : (':' : Char) ∉ ds2 := fun hc => absurd (hds2 ':' hc) (by decide)
  have hcolF : (':' : Char) ∉ ("artlogic.m.staging.squidweb.org".data ++ ds2) :=
    fun hc => (List.mem_append.mp hc).elim
      (fun h => absurd h (by decide)) (fun h => absurd (hds2 ':' h) (by decide))
  have hcolB : (':' : Char) ∉ (bh ++ ds2) :=
    fun hc => (List.mem_append.mp hc).elim
      (fun h => absurd (hbh2 ':' h) (by decide)) (fun h => absurd (hds2 ':' h) (by decide))
  have hstrip := stripTS_base bh hbh hbh2
  rcases hhost with rfl | rfl
  · refine ⟨?_, ?_, ?_, ?_⟩
    · rw [replaceLocalhostUrls_mk _ _ (by exact List.cons_ne_nil _ _) hbne,
        replacePass_full mRepl1 _ _ (by exact List.cons_ne_nil _ _)
          (m1_hit _ ds2 (matchHost_localhost _) (matchPath_digits ds2 hds2)),
        replacePass_id mRepl2 (fixed3002 ++ ds2) (nmF2 ds2 hcolF),
        replacePass_id (mRepl3 (stripTrailingSlash ("https://".data ++ bh)))
          (fixed3002 ++ ds2)
          (nmF3 (stripTrailingSlash ("https://".data ++ bh)) ds2 hcolF),
        replacePass_id (mRepl4 (stripTrailingSlash ("https://".data ++ bh)))
          (fixed3002 ++ ds2)
          (nmF4 (stripTrailingSlash ("https://".data ++ bh)) ds2 hcolF)]
    · rw [replaceLocalhostUrls_mk _ _ (by exact List.cons_ne_nil _ _) hbne,
        replacePass_id mRepl1 _ (nmT1loc ("3000".data ++ ds2) rfl (fun hc =>
          (List.mem_append.mp hc).elim (fun h => absurd h (by decide))
            (fun h => absurd (hds2 ':' h) (by decide)))),
        replacePass_id mRepl2 _ (nmT2loc ("3000".data ++ ds2) rfl (fun hc =>
          (List.mem_append.mp hc).elim (fun h => absurd h (by decide))
            (fun h => absurd (hds2 ':' h) (by decide)))),
        replacePass_full (mRepl3 _) _ _ (by exact List.cons_ne_nil _ _)
          (m3_hit _ _ ("3000".data) ds2 (matchPorts_3000 ds2)
            (matchHost_localhost _) (matchPath_digits ds2 hds2)),
        hstrip, List.append_assoc,
        replacePass_id (mRepl4 _) _ (nmB4 _ (bh ++ ds2) hcolB)]
    · rw [replaceLocalhostUrls_mk _ _ (by exact List.cons_ne_nil _ _) hbne,
        replacePass_id mRepl1 _ (nmT1loc ("8080".data ++ ds2) rfl (fun hc =>
          (List.mem_append.mp hc).elim (fun h => absurd h (by decide))
            (fun h => absurd (hds2 ':' h) (by decide)))),
        replacePass_id mRepl2 _ (nmT2loc ("8080".data ++ ds2) rfl (fun hc =>
          (List.mem_append.mp hc).elim (fun h => absurd h (by decide))
            (fun h => absurd (hds2 ':' h) (by decide)))),
        replacePass_full (mRepl3 _) _ _ (by exact List.cons_ne_nil _ _)
          (m3_hit _ _ ("8080".data) ds2 (matchPorts_8080 ds2)
            (matchHost_localhost _) (matchPath_digits ds2 hds2)),
        hstrip, List.append_assoc,
        replacePass_id (mRepl4 _) _ (nmB4 _ (bh ++ ds2) hcolB)]
    · intro ds hdsne hds hp2 hp0 hp8
      have hcol : (':' : Char) ∉ ds := fun hc => absurd (hds ':' hc) (by decide)
      have h3002 := matchCI_plain_none ("3002".data) (by decide) ds hp2
      have h3000 := matchCI_plain_none ("3000".data) (by decide) ds hp0
      have h8080 := matchCI_plain_none ("8080".data) (by decide) ds hp8
      rw [replaceLocalhostUrls_mk _ _ (by exact List.cons_ne_nil _ _) hbne,
        replacePass_id mRepl1 _ (nmT1loc ds h3002 hcol),
        replacePass_id mRepl2 _ (nmT2loc ds h3002 hcol),
        replacePass_id (mRepl3 _) _ (nmT3loc _ ds h3000 h8080 hcol),
        replacePass_id (mRepl4 _) _ (nmT4loc _ ds h3000 h8080 hcol)]
  · refine ⟨?_, ?_, ?_, ?_⟩
    · rw [replaceLocalhostUrls_mk _ _ (by exact List.cons_ne_nil _ _) hbne,
        replacePass_full mRepl1 _ _ (by exact List.cons_ne_nil _ _)
          (m1_hit _ ds2 (matchHost_ip _) (matchPath_digits ds2 hds2)),
        replacePass_id mRepl2 (fixed3002 ++ ds2) (nmF2 ds2 hcolF),
        replacePass_id (mRepl3 (stripTrailingSlash ("https://".data ++ bh)))
          (fixed3002 ++ ds2)
          (nmF3 (stripTrailingSlash ("https://".data ++ bh)) ds2 hcolF),
        replacePass_id (mRepl4 (stripTrailingSlash ("https://".data ++ bh)))
          (fixed3002 ++ ds2)
          (nmF4 (stripTrailingSlash ("https://".data ++ bh)) ds2 hcolF)]
    · rw [replaceLocalhostUrls_mk _ _ (by exact List.cons_ne_nil _ _) hbne,
        replacePass_id mRepl1 _ (nmT1ip ("3000".data ++ ds2) rfl (fun hc =>
          (List.mem_append.mp hc).elim (fun h => absurd h (by decide))
            (fun h => absurd (hds2 ':' h) (by decide)))),
        replacePass_id mRepl2 _ (nmT2ip ("3000".data ++ ds2) rfl (fun hc =>
          (List.mem_append.mp hc).elim (fun h => absurd h (by decide))
            (fun h => absurd (hds2 ':' h) (by decide)))),
        replacePass_full (mRepl3 _) _ _ (by exact List.cons_ne_nil _ _)
          (m3_hit _ _ ("3000".data) ds2 (matchPorts_3000 ds2)
            (matchHost_ip _) (matchPath_digits ds2 hds2)),
        hstrip, List.append_assoc,
        replacePass_id (mRepl4 _) _ (nmB4 _ (bh ++ ds2) hcolB)]
    · rw [replaceLocalhostUrls_mk _ _ (by exact List.cons_ne_nil _ _) hbne,
        replacePass_id mRepl1 _ (nmT1ip ("8080".data ++ ds2) rfl (fun hc =>
          (List.mem_append.mp hc).elim (fun h => absurd h (by decide))
            (fun h => absurd (hds2 ':' h) (by decide)))),
        replacePass_id mRepl2 _ (nmT2ip ("8080".data ++ ds2) rfl (fun hc =>
          (List.mem_append.mp hc).elim (fun h => absurd h (by decide))
            (fun h => absurd (hds2 ':' h) (by decide)))),
        replacePass_full (mRepl3 _) _ _ (by exact List.cons_ne_nil _ _)
          (m3_hit _ _ ("8080".data) ds2 (matchPorts_8080 ds2)
            (matchHost_ip _) (matchPath_digits ds2 hds2)),
        hstrip, List.append_assoc,
        replacePass_id (mRepl4 _) _ (nmB4 _ (bh ++ ds2) hcolB)]
    · intro ds hdsne hds hp2 hp0 hp8
      have hcol : (':' : Char) ∉ ds := fun hc => absurd (hds ':' hc) (by decide)
      have h3002 := matchCI_plain_none ("3002".data) (by decide) ds hp2
      have h3000 := matchCI_plain_none ("3000".data) (by decide) ds hp0
      have h8080 := matchCI_plain_none ("8080".data) (by decide) ds hp8
      rw [replaceLocalhostUrls_mk _ _ (by exact List.cons_ne_nil _ _) hbne,
        replacePass_id mRepl1 _ (nmT1ip ds h3002 hcol),
        replacePass_id mRepl2 _ (nmT2ip ds h3002 hcol),
        replacePass_id (mRepl3 _) _ (nmT3ip _ ds h3000 h8080 hcol),
        replacePass_id (mRepl4 _) _ (nmT4ip _ ds h3000 h8080 hcol)]

/-- C3 counterexample to "URLs on any other port are left unchanged": the
port patterns are not delimited on the right, so the URL
`http://localhost:30021` — port 30021, not 3002 — is rewritten (with the
leftover digit glued onto the staging host). -/
theorem replaceLocalhostUrls_cex :
    replaceLocalhostUrls "http://localhost:30021" "https://stage.example.com" ≠
      "http://localhost:30021" ∧
    replaceLocalhostUrls "http://localhost:30021" "https://stage.example.com" =
      "https://artlogic.m.staging.squidweb.org1" := by
  constructor
  · decide
  · decide

theorem replaceLocalhostUrls_amended_witness :
    replaceLocalhostUrls ⟨"http://".data ++ ("localhost".data ++ ':' ::
        ("3002".data ++ ['1']))⟩
      ⟨"https://".data ++ "stage.example.com".data⟩ = ⟨fixed3002 ++ ['1']⟩ ∧
    replaceLocalhostUrls ⟨"http://".data ++ ("localhost".data ++ ':' ::
        ['5', '0', '0', '0'])⟩
      ⟨"https://".data ++ "stage.example.com".data⟩ =
      ⟨"http://".data ++ ("localhost".data ++ ':' :: ['5', '0', '0', '0'])⟩ :=
  ⟨(replaceLocalhostUrls_amended ("stage.example.com".data) (by decide) (by decide)
      ("localhost".data) (Or.inl rfl) ['1'] (by decide)).1,
   (replaceLocalhostUrls_amended ("stage.example.com".data) (by decide) (by decide)
      ("localhost".data) (Or.inl rfl) [] (by decide)).2.2.2
     ['5', '0', '0', '0'] (by decide) (by decide) (by decide) (by decide) (by decide)⟩

end TrelloTools
